import Mathlib

/-!
# ERF plot-file and restart I/O (`Source/IO/PlotFile.cpp`)

A shallow embedding of `IOManager::restart`, `IOManager::set_state_in_checkpoint`,
`IOManager::checkPoint`, `IOManager::writePlotFile` and `IOManager::writeSmallPlotFile`.

* Values of the AMReX library (`amrex::Real`, `amrex::Box`, `amrex::MultiFab`, ...) are
  carried as data and never computed with.
* The `std::ostream` a routine writes to is modelled by the sequence of values
  inserted into it (`Tok`), in order; numeric formatting is not modelled.
* The effects of a routine (stream insertions, directory creation, the barrier,
  the bulk write, a fatal `amrex::Error`) are recorded in order in a trace (`Event`).
* `for (i = 0; i < n; i++)` loops are folds over `List.range n`.
-/

namespace ERF

/-! ## AMReX values -/

/-- A value of type `amrex::Real`, identified by its IEEE-754 bit pattern. -/
structure amrex.Real where
  bits : Nat
deriving DecidableEq, Repr

/-- The class `amrex::IndexType`: bit `d` of `itype` is set iff direction `d` is
node-centred; the cell-centred type has no bit set. -/
structure amrex.IndexType where
  itype : Nat
deriving DecidableEq, Repr

/-- The constant `amrex::IndexType::TheCellType()`. -/
def amrex.IndexType.TheCellType : amrex.IndexType := ⟨0⟩

/-- The class `amrex::Box`: an index box, printed as one value by `operator<<`. -/
structure amrex.Box where
  smallend : List Int
  bigend : List Int
  btype : amrex.IndexType
deriving DecidableEq, Repr

/-- The class `amrex::MultiFab` as far as this file reads it: one list of cell values per
component (`nComp` of them). -/
structure amrex.MultiFab where
  comps : List (List amrex.Real)
deriving DecidableEq, Repr

/-- The class `amrex::StateDescriptor` as far as this file reads it: the index type and
the component names (`names` is resized to `nComp()` by the library). -/
structure amrex.StateDescriptor where
  getType : amrex.IndexType
  names : List String
deriving DecidableEq, Repr

/-- The accessor `StateDescriptor::nComp()`. -/
def amrex.StateDescriptor.nComp (d : amrex.StateDescriptor) : Nat := d.names.length

/-- The accessor `StateDescriptor::name(comp)`. -/
def amrex.StateDescriptor.name (d : amrex.StateDescriptor) (comp : Nat) : String :=
  d.names.getD comp ""

instance : Inhabited amrex.StateDescriptor := ⟨⟨amrex.IndexType.TheCellType, []⟩⟩

/-- The class `amrex::DeriveRec` as far as this file reads it: `name()`, `numDerive()` and
`variableName(i)`. -/
structure amrex.DeriveRec where
  name : String
  numDerive : Nat
  variableName : Nat → String

/-- The class `amrex::DeriveList`: the records in registration order (`dlist()`) and the
lookup by name (`get`, a null pointer when nothing is found). The lookup is library code
and is taken as given. -/
structure amrex.DeriveList where
  dlist : List amrex.DeriveRec
  get : String → Option amrex.DeriveRec

/-- The class `amrex::StateData` as far as this file reads it: the descriptor it was
defined with, its current time (`curTime()`) and its new data (`newData()`). -/
structure amrex.StateData where
  desc : amrex.StateDescriptor
  curTime : amrex.Real
  newData : amrex.MultiFab
deriving DecidableEq, Repr

/-! ## Loops -/

/-- The loop `for (i = 0; i < n; i++) body(i)` over an accumulated output: the outputs of the
iterations are appended in order. -/
def forLoop {α : Type} (n : Nat) (body : Nat → List α) : List α :=
  (List.range n).foldl (fun acc i => acc ++ body i) []

/-! ## Raw selection (`plot_var_map`) -/

/-- Lines 475-481 and 663-669: the list of `(state_type, component)` pairs to plot.
`isPlotVar` is `parent->isStatePlotVar` in `writePlotFile` and
`parent->isStateSmallPlotVar` in `writeSmallPlotFile`. -/
def plot_var_map (isPlotVar : String → Bool) (desc_lst : List amrex.StateDescriptor) :
    List (Nat × Nat) :=
  (List.range desc_lst.length).foldl
    (fun acc typ =>
      (List.range (desc_lst.getD typ default).nComp).foldl
        (fun acc comp =>
          if isPlotVar ((desc_lst.getD typ default).name comp) &&
              ((desc_lst.getD typ default).getType == amrex.IndexType.TheCellType)
          then acc ++ [(typ, comp)]
          else acc)
        acc)
    []

/-! ## Derived selection (`derive_names`, `num_derive`) -/

/-- Lines 483-497: the names of the derived variables to plot and the sum of their
`numDerive()`, accumulated over `derive_lst.dlist()` in list order. -/
def derive_selection (isDerivePlotVar : String → Bool) (dlist : List amrex.DeriveRec) :
    List String × Nat :=
  dlist.foldl
    (fun (acc : List String × Nat) it =>
      if isDerivePlotVar it.name then (acc.1 ++ [it.name], acc.2 + it.numDerive) else acc)
    ([], 0)

/-! ## The simulation state read by the I/O routines -/

/-- The macro `AMREX_SPACEDIM`; ERF is built in three dimensions (`writeJobInfo` reads
`lo_bc_out[2]`). -/
def AMREX_SPACEDIM : Nat := 3

/-- The file-scope constant `vfraceps = 0.000001` (as an IEEE double). -/
def vfraceps : amrex.Real := ⟨0x3EB0C6F7A0B5ED8D⟩

instance : Inhabited amrex.StateData := ⟨⟨default, ⟨0⟩, ⟨[]⟩⟩⟩

/-- What the routines read of the `ERF` level object `erf`, of its parent `amrex::Amr` and
of `amrex::DefaultGeometry()`. -/
structure ERFState where
  /-- The field `erf.level`. -/
  level : Nat
  /-- The field `erf.desc_lst`. -/
  desc_lst : List amrex.StateDescriptor
  /-- The field `erf.derive_lst`. -/
  derive_lst : amrex.DeriveList
  /-- The field `erf.state`. -/
  state : List amrex.StateData
  /-- The field `erf.num_state_type`. -/
  num_state_type : Nat
  /-- The field `erf.grids`. -/
  grids : List amrex.Box
  /-- The call `erf.thePlotFileType()`. -/
  thePlotFileType : String
  /-- The call `erf.parent->isStatePlotVar(name)`. -/
  isStatePlotVar : String → Bool
  /-- The call `erf.parent->isDerivePlotVar(name)`. -/
  isDerivePlotVar : String → Bool
  /-- The call `erf.parent->isStateSmallPlotVar(name)`. -/
  isStateSmallPlotVar : String → Bool
  /-- The call `erf.parent->cumTime()`. -/
  cumTime : amrex.Real
  /-- The call `erf.parent->finestLevel()`. -/
  finestLevel : Nat
  /-- The call `amrex::DefaultGeometry().ProbLo(i)`. -/
  ProbLo : Nat → amrex.Real
  /-- The call `amrex::DefaultGeometry().ProbHi(i)`. -/
  ProbHi : Nat → amrex.Real
  /-- The call `erf.parent->refRatio(i)[0]`. -/
  refRatio : Nat → Int
  /-- The call `erf.parent->Geom(i).Domain()`. -/
  Domain : Nat → amrex.Box
  /-- The call `erf.parent->levelSteps(i)`. -/
  levelSteps : Nat → Int
  /-- The call `erf.parent->Geom(i).CellSize()[k]`. -/
  CellSize : Nat → Nat → amrex.Real
  /-- The call `(int)amrex::DefaultGeometry().Coord()`. -/
  Coord : Int
  /-- The value `gridloc.lo(n)` of `RealBox(erf.grids[i], erf.geom.CellSize(), erf.geom.ProbLo())`. -/
  gridloc_lo : Nat → Nat → amrex.Real
  /-- The value `gridloc.hi(n)` of the same box. -/
  gridloc_hi : Nat → Nat → amrex.Real
  /-- The call `erf.derive(name, time, 0)`: the freshly computed derived data. -/
  derive : String → amrex.Real → amrex.MultiFab

/-! ## Output values and effects -/

/-- One value inserted into a `std::ostream` with `operator<<`. -/
inductive Tok where
  | str (s : String)
  | chr (c : Char)
  | int (i : Int)
  | real (r : amrex.Real)
  | box (b : amrex.Box)
deriving DecidableEq, Repr

/-- One effect of an I/O routine. -/
inductive Event where
  /-- Insertion into `std::cout`. -/
  | cout (s : String)
  /-- Insertion of one value into the header stream `os`. -/
  | os (t : Tok)
  /-- The call `amrex::Error(msg)`: the run is aborted. -/
  | Error (msg : String)
  /-- The call `writeJobInfo(dir)`: creates the file `dir/job_info`. -/
  | writeJobInfo (dir : String)
  /-- The call `amrex::UtilCreateDirectory(path, 0755)`. -/
  | UtilCreateDirectory (path : String)
  /-- The call `amrex::CreateDirectoryFailed(path)`: the run is aborted. -/
  | CreateDirectoryFailed (path : String)
  /-- The call `amrex::ParallelDescriptor::Barrier()`. -/
  | Barrier
  /-- Dereference of the null pointer returned by `derive_lst.get`. -/
  | nullDereference
  /-- The call `amrex::VisMF::Write(mf, path, how, true)`. -/
  | VisMFWrite (mf : amrex.MultiFab) (path : String) (how : Nat)
deriving DecidableEq, Repr

/-- The effects of a piece of code, in order, and whether it aborted the run (in which case
nothing after it is executed). -/
structure Run where
  events : List Event
  aborted : Bool
deriving DecidableEq, Repr

/-- Code that performs the given effects and continues. -/
def Run.emit (evs : List Event) : Run := ⟨evs, false⟩

/-- Code that performs one effect which aborts the run. -/
def Run.abort (ev : Event) : Run := ⟨[ev], true⟩

/-- Sequential composition of statements: execution stops at the first abort. -/
def Run.seqAll : List Run → Run
  | [] => ⟨[], false⟩
  | r :: rs =>
    if r.aborted then r
    else ⟨r.events ++ (Run.seqAll rs).events, (Run.seqAll rs).aborted⟩

/-- The statement `os << t₁ << t₂ << ...`. -/
def osWrite (ts : List Tok) : List Event := ts.map Event.os

/-- The message of the `amrex::Error` call of lines 510 and 682. -/
def noDataItemsMsg : String := "Must specify at least one valid data item to plot"

/-! ## `writePlotFile` -/

/-- Lines 517-521 and 689-693: the names of the selected state components, one per line. -/
def writeStateNames (desc_lst : List amrex.StateDescriptor) (pvm : List (Nat × Nat)) :
    List Event :=
  forLoop pvm.length fun i =>
    let typ := (pvm.getD i (0, 0)).1
    let comp := (pvm.getD i (0, 0)).2
    osWrite [Tok.str ((desc_lst.getD typ default).name comp), Tok.chr '\n']

/-- Lines 523-529: the component names of the selected derived variables, one per line. -/
def writeDeriveNames (derive_lst : amrex.DeriveList) (derive_names : List String) : Run :=
  Run.seqAll (derive_names.map fun it =>
    match derive_lst.get it with
    | none => Run.abort Event.nullDereference
    | some rec =>
      Run.emit (forLoop rec.numDerive fun i =>
        osWrite [Tok.str (rec.variableName i), Tok.chr '\n']))

/-- Lines 531-556 and 695-720: the geometry part of the header. The insertion of the
literal `"0\n"` is recorded as the text `0` followed by the newline character. -/
def writeGeometry (erf : ERFState) : List Event :=
  let f_lev := erf.finestLevel
  osWrite [Tok.int AMREX_SPACEDIM, Tok.chr '\n'] ++
  osWrite [Tok.real erf.cumTime, Tok.chr '\n'] ++
  osWrite [Tok.int f_lev, Tok.chr '\n'] ++
  forLoop AMREX_SPACEDIM (fun i => osWrite [Tok.real (erf.ProbLo i), Tok.chr ' ']) ++
  osWrite [Tok.chr '\n'] ++
  forLoop AMREX_SPACEDIM (fun i => osWrite [Tok.real (erf.ProbHi i), Tok.chr ' ']) ++
  osWrite [Tok.chr '\n'] ++
  forLoop f_lev (fun i => osWrite [Tok.int (erf.refRatio i), Tok.chr ' ']) ++
  osWrite [Tok.chr '\n'] ++
  forLoop (f_lev + 1) (fun i => osWrite [Tok.box (erf.Domain i), Tok.chr ' ']) ++
  osWrite [Tok.chr '\n'] ++
  forLoop (f_lev + 1) (fun i => osWrite [Tok.int (erf.levelSteps i), Tok.chr ' ']) ++
  osWrite [Tok.chr '\n'] ++
  forLoop (f_lev + 1) (fun i =>
    forLoop AMREX_SPACEDIM (fun k => osWrite [Tok.real (erf.CellSize i k), Tok.chr ' ']) ++
    osWrite [Tok.chr '\n']) ++
  osWrite [Tok.int erf.Coord, Tok.chr '\n'] ++
  osWrite [Tok.str "0", Tok.chr '\n']

/-- Lines 563-573 and 728-738: `LevelStr`, the name of the level directory. -/
def LevelStr (level : Nat) : String := "Level_" ++ toString level

/-- Lines 570-573 and 735-738: `FullPath`, the path of the level directory. -/
def FullPath (dir : String) (level : Nat) : String :=
  (if !dir.isEmpty && dir.toList.getLast? != some '/' then dir ++ "/" else dir)
    ++ LevelStr level

/-- Lines 577-579 and 742-744: only the I/O processor makes the directory; `mkdirOk` is the
result of `amrex::UtilCreateDirectory`. -/
def makeLevelDirectory (IOProcessor mkdirOk : Bool) (path : String) : Run :=
  if IOProcessor then
    if !mkdirOk then
      Run.seqAll [Run.emit [Event.UtilCreateDirectory path],
        Run.abort (Event.CreateDirectoryFailed path)]
    else Run.emit [Event.UtilCreateDirectory path]
  else Run.emit []

/-- Lines 586-604 and 751-769: the records of the level written after the barrier. -/
def writeLevelRecords (erf : ERFState) (cur_time : amrex.Real) (n_data_items : Nat) :
    List Event :=
  osWrite [Tok.int erf.level, Tok.chr ' ', Tok.int erf.grids.length, Tok.chr ' ',
    Tok.real cur_time, Tok.chr '\n'] ++
  osWrite [Tok.int (erf.levelSteps erf.level), Tok.chr '\n'] ++
  forLoop erf.grids.length (fun i =>
    forLoop AMREX_SPACEDIM (fun n =>
      osWrite [Tok.real (erf.gridloc_lo i n), Tok.chr ' ',
        Tok.real (erf.gridloc_hi i n), Tok.chr '\n'])) ++
  (if n_data_items > 0 then osWrite [Tok.str (LevelStr erf.level ++ "/Cell"), Tok.chr '\n']
   else [])

/-- The call `amrex::MultiFab::Copy(dst, src, srccomp, dstcomp, numcomp, 0)`. -/
def amrex.MultiFab.Copy (dst src : amrex.MultiFab) (srccomp dstcomp numcomp : Nat) :
    amrex.MultiFab :=
  (List.range numcomp).foldl
    (fun d k => ⟨d.comps.set (dstcomp + k) (src.comps.getD (srccomp + k) [])⟩) dst

/-- Lines 621-627 and 785-791: the state components are copied into `plotMF`; the result is
`plotMF` and the write position `cnt`. -/
def cullState (state : List amrex.StateData) (pvm : List (Nat × Nat))
    (plotMF : amrex.MultiFab) (cnt : Nat) : amrex.MultiFab × Nat :=
  (List.range pvm.length).foldl
    (fun (acc : amrex.MultiFab × Nat) i =>
      let typ := (pvm.getD i (0, 0)).1
      let comp := (pvm.getD i (0, 0)).2
      let this_dat := (state.getD typ default).newData
      (amrex.MultiFab.Copy acc.1 this_dat comp acc.2 1, acc.2 + 1))
    (plotMF, cnt)

/-- Lines 631-643: the derived variables are computed and copied into `plotMF`; `none` when
`derive_lst.get` returns a null pointer. -/
def cullDerived (erf : ERFState) (derive_names : List String) (cur_time : amrex.Real)
    (plotMF : amrex.MultiFab) (cnt : Nat) : Option (amrex.MultiFab × Nat) :=
  derive_names.foldl
    (fun (acc : Option (amrex.MultiFab × Nat)) it =>
      match acc with
      | none => none
      | some (mf, cnt) =>
        match erf.derive_lst.get it with
        | none => none
        | some rec =>
          let ncomp := rec.numDerive
          let derive_dat := erf.derive it cur_time
          some (amrex.MultiFab.Copy mf derive_dat 0 cnt ncomp, cnt + ncomp))
    (some (plotMF, cnt))

/-- Lines 615-616 and 779-780: `plotMF` is allocated with `n_data_items` components. -/
def newPlotMF (n_data_items : Nat) : amrex.MultiFab := ⟨List.replicate n_data_items []⟩

/-- Line 499: `n_data_items` of `writePlotFile`. -/
def n_data_items (erf : ERFState) : Nat :=
  (plot_var_map erf.isStatePlotVar erf.desc_lst).length +
    (derive_selection erf.isDerivePlotVar erf.derive_lst.dlist).2

/-- Lines 507-558, the body of `if (erf.level == 0 && IOProcessor())` in `writePlotFile`:
the header of the plot file, then the job information file. -/
def writePlotFile_header (erf : ERFState) (dir : String) (pvm : List (Nat × Nat))
    (derive_names : List String) (n_data_items : Nat) : Run :=
  Run.seqAll [
    Run.emit (osWrite [Tok.str erf.thePlotFileType, Tok.chr '\n']),
    (if n_data_items == 0 then Run.abort (Event.Error noDataItemsMsg) else Run.emit []),
    Run.emit (osWrite [Tok.int n_data_items, Tok.chr '\n']),
    Run.emit (writeStateNames erf.desc_lst pvm),
    writeDeriveNames erf.derive_lst derive_names,
    Run.emit (writeGeometry erf),
    Run.emit [Event.writeJobInfo dir]]

/-- Lines 560-650 of `writePlotFile`: the level directory, the barrier, the records of the
level, and the bulk write of `plotMF`. -/
def writePlotFile_level (IOProcessor mkdirOk : Bool) (erf : ERFState) (dir : String)
    (how : Nat) (pvm : List (Nat × Nat)) (derive_names : List String) (n_data_items : Nat)
    (cur_time : amrex.Real) : Run :=
  Run.seqAll [
    makeLevelDirectory IOProcessor mkdirOk (FullPath dir erf.level),
    Run.emit [Event.Barrier],
    (if IOProcessor then Run.emit (writeLevelRecords erf cur_time n_data_items)
     else Run.emit []),
    (match cullDerived erf (if derive_names.length > 0 then derive_names else []) cur_time
        (cullState erf.state pvm (newPlotMF n_data_items) 0).1
        (cullState erf.state pvm (newPlotMF n_data_items) 0).2 with
     | none => Run.abort Event.nullDereference
     | some (plotMF, _) =>
       Run.emit [Event.VisMFWrite plotMF (FullPath dir erf.level ++ "/Cell") how])]

/-- The function `IOManager::writePlotFile(dir, os, how)` (lines 465-651), run by one worker:
`IOProcessor` tells whether the worker is the I/O processor, `mkdirOk` is the result of
`amrex::UtilCreateDirectory`, `State_Type` the index of the state slot. -/
def writePlotFile (IOProcessor mkdirOk : Bool) (State_Type : Nat) (erf : ERFState)
    (dir : String) (how : Nat) : Run :=
  let pvm := plot_var_map erf.isStatePlotVar erf.desc_lst
  let derive_names := (derive_selection erf.isDerivePlotVar erf.derive_lst.dlist).1
  let num_derive := (derive_selection erf.isDerivePlotVar erf.derive_lst.dlist).2
  let n_data_items := pvm.length + num_derive
  let cur_time := (erf.state.getD State_Type default).curTime
  Run.seqAll [
    Run.emit [Event.cout "writePlotFile_00"],
    (if erf.level == 0 && IOProcessor then
      writePlotFile_header erf dir pvm derive_names n_data_items
     else Run.emit []),
    writePlotFile_level IOProcessor mkdirOk erf dir how pvm derive_names n_data_items
      cur_time]

/-! ## `writeSmallPlotFile` -/

/-- Lines 679-723, the body of `if (erf.level == 0 && IOProcessor())` in
`writeSmallPlotFile`. -/
def writeSmallPlotFile_header (erf : ERFState) (dir : String) (pvm : List (Nat × Nat))
    (n_data_items : Nat) : Run :=
  Run.seqAll [
    Run.emit (osWrite [Tok.str erf.thePlotFileType, Tok.chr '\n']),
    (if n_data_items == 0 then Run.abort (Event.Error noDataItemsMsg) else Run.emit []),
    Run.emit (osWrite [Tok.int n_data_items, Tok.chr '\n']),
    Run.emit (writeStateNames erf.desc_lst pvm),
    Run.emit (writeGeometry erf),
    Run.emit [Event.writeJobInfo dir]]

/-- Lines 725-798 of `writeSmallPlotFile`: the level directory, the barrier, the records of
the level followed by `vfraceps`, and the bulk write of `plotMF`. -/
def writeSmallPlotFile_level (IOProcessor mkdirOk : Bool) (erf : ERFState) (dir : String)
    (how : Nat) (pvm : List (Nat × Nat)) (n_data_items : Nat) (cur_time : amrex.Real) : Run :=
  Run.seqAll [
    makeLevelDirectory IOProcessor mkdirOk (FullPath dir erf.level),
    Run.emit [Event.Barrier],
    (if IOProcessor then
      Run.emit (writeLevelRecords erf cur_time n_data_items ++
        osWrite [Tok.real vfraceps, Tok.chr '\n'])
     else Run.emit []),
    Run.emit [Event.VisMFWrite (cullState erf.state pvm (newPlotMF n_data_items) 0).1
      (FullPath dir erf.level ++ "/Cell") how]]

/-- The function `IOManager::writeSmallPlotFile(dir, os, how)` (lines 653-799), run by one
worker; parameters as for `writePlotFile`. -/
def writeSmallPlotFile (IOProcessor mkdirOk : Bool) (State_Type : Nat) (erf : ERFState)
    (dir : String) (how : Nat) : Run :=
  let pvm := plot_var_map erf.isStateSmallPlotVar erf.desc_lst
  let n_data_items := pvm.length
  let cur_time := (erf.state.getD State_Type default).curTime
  Run.seqAll [
    (if erf.level == 0 && IOProcessor then writeSmallPlotFile_header erf dir pvm n_data_items
     else Run.emit []),
    writeSmallPlotFile_level IOProcessor mkdirOk erf dir how pvm n_data_items cur_time]

/-! ## `restart`: the checkpoint version -/

/-- The file-scope variable `input_version` (initially `-1`, line 28), together with a count
of how many times this process has opened the `ERFHeader` file. -/
structure Globals where
  input_version : Int
  opens : Nat
deriving DecidableEq, Repr

/-- The state of the file-scope variables at program start. -/
def Globals.init : Globals := ⟨-1, 0⟩

/-- The largest value of a C++ `int`. -/
def INT_MAX : Int := 2147483647

/-- The smallest value of a C++ `int`. -/
def INT_MIN : Int := -2147483648

/-- The result of `std::istream::getline(buf, count, delim)` on a stream that is good:
the characters left in the stream and whether the stream is still good. Tested in this
order: end of file (not good); the next character is the delimiter (extracted and
discarded, good); `count - 1` characters have been stored (not good). `room` is the number
of characters that may still be stored. -/
def istream_getline (delim : Char) : Nat → List Char → List Char × Bool
  | _, [] => ([], false)
  | room, c :: cs =>
    if c = delim then (cs, true)
    else
      match room with
      | 0 => (c :: cs, false)
      | room + 1 => istream_getline delim room cs

/-- The predicate `std::isspace` in the C locale. -/
def isspace (c : Char) : Bool :=
  c = ' ' || c = '\t' || c = '\n' || c = '\x0b' || c = '\x0c' || c = '\r'

/-- The value of a sequence of decimal digits. -/
def digitsValue (ds : List Char) : Nat :=
  ds.foldl (fun n c => 10 * n + (c.toNat - '0'.toNat)) 0

/-- The result of `is >> value` for an `int` on a stream that is good, `old` being the value
held before: leading white space is skipped; at end of file nothing is stored; otherwise
an optional sign and the decimal digits that follow are converted, `0` is stored when there
is no digit, and a value out of the range of `int` is stored as `INT_MAX` or `INT_MIN`. -/
def istream_extract_int (old : Int) (cs : List Char) : Int :=
  match cs.dropWhile isspace with
  | [] => old
  | c :: rest =>
    let neg := c = '-'
    let body := if c = '-' ∨ c = '+' then rest else c :: rest
    let ds := body.takeWhile Char.isDigit
    if ds.isEmpty then 0
    else
      let v : Int := if neg then -(digitsValue ds : Int) else (digitsValue ds : Int)
      if v < INT_MIN then INT_MIN else if v > INT_MAX then INT_MAX else v

/-- Lines 43-55, run by the I/O processor: `ERFHeader` is the text of the file
`<restart dir>/ERFHeader`, `none` when it cannot be opened. The result is the new value of
`input_version`. -/
def readERFHeader (input_version : Int) (ERFHeader : Option String) : Int :=
  match ERFHeader with
  | some text =>
    let s := istream_getline ':' 255 text.toList
    if s.2 then istream_extract_int input_version s.1 else input_version
  | none => 0

/-- Lines 41-61 of `IOManager::restart`, run by one worker. The workers run the same
program in lock-step, so that they all hold the same `input_version` on entry; the
broadcast then leaves the I/O processor's value on every worker. `AMREX_DEBUG` tells
whether `AMREX_ASSERT` is compiled in; a failed assertion aborts the run. -/
def restart_version (AMREX_DEBUG IOProcessor : Bool) (ERFHeader : Option String)
    (g : Globals) : Except String Globals :=
  let g1 : Globals :=
    if g.input_version == -1 then
      { input_version := readERFHeader g.input_version ERFHeader,
        opens := if IOProcessor then g.opens + 1 else g.opens }
    else g
  if AMREX_DEBUG && !(g1.input_version ≥ 0) then
    Except.error "Assertion input_version >= 0 failed"
  else Except.ok g1

/-! ## `restart`: state slots missing from the checkpoint -/

/-- The function `IOManager::set_state_in_checkpoint` (lines 140-150). `Work_Estimate_Type`
and `num_state_type` are declared outside this file. An assignment to an index past the
end of the vector is not modelled (it leaves the list unchanged). -/
def set_state_in_checkpoint (Work_Estimate_Type num_state_type : Nat)
    (state_in_checkpoint : List Int) : List Int :=
  (List.range num_state_type).foldl
    (fun v i =>
      let v := v.set i 1
      if i == Work_Estimate_Type then v.set i 0 else v)
    state_in_checkpoint

/-- The call `StateData::define(domain, grids, dmap, desc, time, dt, factory)` as far as
this file reads its result: the descriptor, the time and freshly allocated data. -/
def amrex.StateData.define (desc : amrex.StateDescriptor) (time : amrex.Real) :
    amrex.StateData :=
  ⟨desc, time, ⟨List.replicate desc.nComp []⟩⟩

/-- The body of the loop of lines 69-77 of `IOManager::restart` for index `i`: a slot that is
not in the checkpoint is defined and then assigned the preceding slot. The result is `none`
when the body reads `state[i - 1]` with `i = 0`, which does not exist. An index past the end
of `state` is not modelled as a failure: a read there gives a default instance and a write
there leaves the list unchanged. -/
def migrateStep (desc_lst : List amrex.StateDescriptor) (state_in_checkpoint : List Int)
    (acc : Option (List amrex.StateData)) (i : Nat) : Option (List amrex.StateData) :=
  match acc with
  | none => none
  | some st =>
    if state_in_checkpoint.getD i 1 == 0 then
      match i with
      | 0 => none
      | j + 1 =>
        let ctime := (st.getD j default).curTime
        let st1 := st.set (j + 1)
          (amrex.StateData.define (desc_lst.getD (j + 1) default) ctime)
        some (st1.set (j + 1) (st1.getD j default))
    else some st

/-- Lines 69-77 of `IOManager::restart`: the loop over the slots. -/
def migrate (desc_lst : List amrex.StateDescriptor) (state_in_checkpoint : List Int)
    (state : List amrex.StateData) : Option (List amrex.StateData) :=
  (List.range desc_lst.length).foldl (migrateStep desc_lst state_in_checkpoint) (some state)

/-- Lines 67-77 of `IOManager::restart`: the flags are allocated as all ones, set by
`set_state_in_checkpoint`, and the missing slots are filled in. -/
def restart_state (Work_Estimate_Type : Nat) (erf : ERFState) :
    Option (List amrex.StateData) :=
  migrate erf.desc_lst
    (set_state_in_checkpoint Work_Estimate_Type erf.num_state_type
      (List.replicate erf.desc_lst.length 1))
    erf.state

/-! ## `checkPoint` -/

/-- The file-scope variable `current_version` (line 29). -/
def current_version : Int := 1

/-- What one call of `checkPoint` writes: the text of `<dir>/ERFHeader` and the value written
to `<dir>/CPUtime`; `none` for a file the call does not write. -/
structure CheckpointFiles where
  ERFHeader : Option String
  CPUtime : Option amrex.Real
deriving DecidableEq, Repr

/-- The function `IOManager::checkPoint` (lines 152-199), run by one worker at level `level`:
`version` is the value of `current_version`, `getCPUTime` the result of `erf.getCPUTime()`.
The manipulator `std::endl` inserts a newline character. -/
def checkPoint (IOProcessor : Bool) (level : Nat) (version : Int) (getCPUTime : amrex.Real) :
    CheckpointFiles :=
  if level == 0 && IOProcessor then
    { ERFHeader := some ("Checkpoint version: " ++ toString version ++ "\n"),
      CPUtime := some getCPUTime }
  else { ERFHeader := none, CPUtime := none }

/-! ## Notions used to state the properties -/

/-- The components of slot `typ` that the raw selection keeps. -/
def selectedComps (isPlotVar : String → Bool) (d : amrex.StateDescriptor) : List Nat :=
  (List.range d.nComp).filter
    (fun comp => isPlotVar (d.name comp) && (d.getType == amrex.IndexType.TheCellType))

/-- The strict lexicographic order on `(slot, component)` pairs. -/
def pairLt (p q : Nat × Nat) : Prop := p.1 < q.1 ∨ (p.1 = q.1 ∧ p.2 < q.2)

instance : DecidableRel pairLt := fun p q => by unfold pairLt; infer_instance

/-- The records of the derived-variable registry that the derived selection keeps. -/
def selectedDerived (erf : ERFState) : List amrex.DeriveRec :=
  erf.derive_lst.dlist.filter (fun r => erf.isDerivePlotVar r.name)

/-- The registry lookup finds every selected record under its own name. -/
def LookupConsistent (erf : ERFState) : Prop :=
  ∀ r ∈ selectedDerived erf, erf.derive_lst.get r.name = some r

/-- The variable names of a full plot file: the names of the selected state components,
then the component names of the selected derived variables. -/
def variableNames (erf : ERFState) : List String :=
  (plot_var_map erf.isStatePlotVar erf.desc_lst).map
      (fun p => (erf.desc_lst.getD p.1 default).name p.2) ++
    (selectedDerived erf).flatMap (fun r => (List.range r.numDerive).map r.variableName)

/-- One record of the header: its values, then the end of the line. -/
def record (vals : List Tok) : List Tok := vals ++ [Tok.chr '\n']

/-- A record of several scalars: each one is followed by a blank. -/
def blanks (vals : List Tok) : List Tok := vals.flatMap (fun v => [v, Tok.chr ' '])

/-- The records of the header of a full plot file, in the order of the format: plot-type
tag; variable count; one variable name per line; dimension count; cumulative time; finest
level; domain low; domain high; refinement ratios; level domains; level step counts; one
line of cell sizes per level; coordinate system; the literal `0`. Each entry is the content
of one line. -/
def PlotFileHeader (erf : ERFState) : List (List Tok) :=
  [[Tok.str erf.thePlotFileType], [Tok.int (n_data_items erf)]] ++
  (variableNames erf).map (fun nm => [Tok.str nm]) ++
  [[Tok.int AMREX_SPACEDIM],
   [Tok.real erf.cumTime],
   [Tok.int erf.finestLevel],
   blanks ((List.range AMREX_SPACEDIM).map (fun i => Tok.real (erf.ProbLo i))),
   blanks ((List.range AMREX_SPACEDIM).map (fun i => Tok.real (erf.ProbHi i))),
   blanks ((List.range erf.finestLevel).map (fun i => Tok.int (erf.refRatio i))),
   blanks ((List.range (erf.finestLevel + 1)).map (fun i => Tok.box (erf.Domain i))),
   blanks ((List.range (erf.finestLevel + 1)).map (fun i => Tok.int (erf.levelSteps i)))] ++
  (List.range (erf.finestLevel + 1)).map
    (fun i => blanks ((List.range AMREX_SPACEDIM).map (fun k => Tok.real (erf.CellSize i k)))) ++
  [[Tok.int erf.Coord], [Tok.str "0"]]

/-! ## A concrete run: two state slots and one derived variable -/

/-- The derived variable `Speed`, of one component. -/
def speedRec : amrex.DeriveRec := ⟨"Speed", 1, fun _ => "Speed"⟩

/-- A level-0 state with two cell-centred slots of 3 and 1 components and the derived
variable `Speed`; every variable is selected for plotting. -/
def scenario : ERFState where
  level := 0
  desc_lst := [⟨amrex.IndexType.TheCellType, ["slot0.c0", "slot0.c1", "slot0.c2"]⟩,
    ⟨amrex.IndexType.TheCellType, ["slot1.c0"]⟩]
  derive_lst := ⟨[speedRec], fun nm => if nm = "Speed" then some speedRec else none⟩
  state := [⟨⟨amrex.IndexType.TheCellType, ["slot0.c0", "slot0.c1", "slot0.c2"]⟩, ⟨0⟩,
      ⟨[[⟨1⟩], [⟨2⟩], [⟨3⟩]]⟩⟩,
    ⟨⟨amrex.IndexType.TheCellType, ["slot1.c0"]⟩, ⟨0⟩, ⟨[[⟨4⟩]]⟩⟩]
  num_state_type := 2
  grids := [⟨[0, 0, 0], [7, 7, 7], amrex.IndexType.TheCellType⟩]
  thePlotFileType := "HyperCLaw-V1.1"
  isStatePlotVar := fun _ => true
  isDerivePlotVar := fun _ => true
  isStateSmallPlotVar := fun _ => true
  cumTime := ⟨0⟩
  finestLevel := 0
  ProbLo := fun _ => ⟨0⟩
  ProbHi := fun _ => ⟨1⟩
  refRatio := fun _ => 2
  Domain := fun _ => ⟨[0, 0, 0], [7, 7, 7], amrex.IndexType.TheCellType⟩
  levelSteps := fun _ => 0
  CellSize := fun _ _ => ⟨1⟩
  Coord := 0
  gridloc_lo := fun _ _ => ⟨0⟩
  gridloc_hi := fun _ _ => ⟨1⟩
  derive := fun _ _ => ⟨[[⟨5⟩]]⟩

/-- The same state with nothing selected for plotting. -/
def scenarioNone : ERFState :=
  { scenario with
    isStatePlotVar := fun _ => false
    isDerivePlotVar := fun _ => false
    isStateSmallPlotVar := fun _ => false }

/-- The same state with every state variable and no derived variable selected. -/
def scenarioNoDerived : ERFState :=
  { scenario with isDerivePlotVar := fun _ => false }

/-- A derived variable `Dv` of one component. -/
def dupRec1 : amrex.DeriveRec := ⟨"Dv", 1, fun _ => "Dv"⟩

/-- A second derived variable registered under the same name `Dv`, of two components. -/
def dupRec2 : amrex.DeriveRec := ⟨"Dv", 2, fun _ => "Dv"⟩

/-- The concrete state with a registry that holds two records named `Dv`, of 1 and 2
components; the lookup by name returns the first record with that name. -/
def scenarioDup : ERFState :=
  { scenario with
    derive_lst := ⟨[dupRec1, dupRec2], fun nm => if nm = "Dv" then some dupRec1 else none⟩ }

/-- A state with three slots, for a program whose work-estimate slot is slot 2. -/
def scenarioThree : ERFState :=
  { scenario with
    desc_lst := [⟨amrex.IndexType.TheCellType, ["slot0.c0", "slot0.c1", "slot0.c2"]⟩,
      ⟨amrex.IndexType.TheCellType, ["slot1.c0"]⟩,
      ⟨amrex.IndexType.TheCellType, ["slot2.c0"]⟩]
    state := [⟨⟨amrex.IndexType.TheCellType, ["slot0.c0", "slot0.c1", "slot0.c2"]⟩, ⟨10⟩,
        ⟨[[⟨1⟩], [⟨2⟩], [⟨3⟩]]⟩⟩,
      ⟨⟨amrex.IndexType.TheCellType, ["slot1.c0"]⟩, ⟨11⟩, ⟨[[⟨4⟩]]⟩⟩,
      ⟨⟨amrex.IndexType.TheCellType, ["slot2.c0"]⟩, ⟨12⟩, ⟨[[⟨6⟩]]⟩⟩]
    num_state_type := 3 }

/-- Lines 612-643 of `writePlotFile`: the array `plotMF` handed to `VisMF::Write` and the
final write position `cnt`; `none` when `derive_lst.get` returns a null pointer. -/
def packPlotMF (State_Type : Nat) (erf : ERFState) : Option (amrex.MultiFab × Nat) :=
  let pvm := plot_var_map erf.isStatePlotVar erf.desc_lst
  let derive_names := (derive_selection erf.isDerivePlotVar erf.derive_lst.dlist).1
  let num_derive := (derive_selection erf.isDerivePlotVar erf.derive_lst.dlist).2
  let n_data_items := pvm.length + num_derive
  let cur_time := (erf.state.getD State_Type default).curTime
  cullDerived erf (if derive_names.length > 0 then derive_names else []) cur_time
    (cullState erf.state pvm (newPlotMF n_data_items) 0).1
    (cullState erf.state pvm (newPlotMF n_data_items) 0).2

/-- The components of the destination that the call
`amrex::MultiFab::Copy(dst, src, srccomp, dstcomp, numcomp, 0)` assigns, in order. -/
def amrex.MultiFab.CopyWrites (dstcomp numcomp : Nat) : List Nat :=
  (List.range numcomp).foldl (fun w k => w ++ [dstcomp + k]) []

/-- Lines 621-627: the components of `plotMF` assigned by the copies of the state loop, added
to `writes` in order, and the write position `cnt`. -/
def cullStateWrites (pvm : List (Nat × Nat)) (writes : List Nat) (cnt : Nat) :
    List Nat × Nat :=
  (List.range pvm.length).foldl
    (fun (acc : List Nat × Nat) _ =>
      (acc.1 ++ amrex.MultiFab.CopyWrites acc.2 1, acc.2 + 1))
    (writes, cnt)

/-- Lines 631-643: the components of `plotMF` assigned by the copies of the derived loop,
added to `writes` in order, and the write position `cnt`. -/
def cullDerivedWrites (erf : ERFState) (derive_names : List String) (writes : List Nat)
    (cnt : Nat) : Option (List Nat × Nat) :=
  derive_names.foldl
    (fun (acc : Option (List Nat × Nat)) it =>
      match acc with
      | none => none
      | some (w, cnt) =>
        match erf.derive_lst.get it with
        | none => none
        | some rec =>
          let ncomp := rec.numDerive
          some (w ++ amrex.MultiFab.CopyWrites cnt ncomp, cnt + ncomp))
    (some (writes, cnt))

/-- Lines 612-643 of `writePlotFile`: the components of `plotMF` in the order in which the
copies assign them. -/
def plotMFWrites (erf : ERFState) : Option (List Nat) :=
  let pvm := plot_var_map erf.isStatePlotVar erf.desc_lst
  let derive_names := (derive_selection erf.isDerivePlotVar erf.derive_lst.dlist).1
  (cullDerivedWrites erf (if derive_names.length > 0 then derive_names else [])
    (cullStateWrites pvm [] 0).1 (cullStateWrites pvm [] 0).2).map (fun r => r.1)

/-- The values a run has inserted into the header stream `os`, in order. -/
def osText (evs : List Event) : List Tok :=
  evs.filterMap (fun e => match e with
    | Event.os t => some t
    | _ => none)

/-- The events of a run that come after its first barrier (empty when there is none). -/
def afterBarrier (evs : List Event) : List Event :=
  (evs.dropWhile (fun e => e != Event.Barrier)).drop 1

/-! # Theorems -/

/-! ## Lemmas on loops -/

theorem foldl_append_flatMap {α β : Type} (f : α → List β) (l : List α) (init : List β) :
    l.foldl (fun acc x => acc ++ f x) init = init ++ l.flatMap f := by
  induction l generalizing init with
  | nil => simp
  | cons x xs ih => simp [ih, List.append_assoc]

theorem forLoop_eq_flatMap {α : Type} (n : Nat) (body : Nat → List α) :
    forLoop n body = (List.range n).flatMap body := by
  simp [forLoop, foldl_append_flatMap]

theorem foldl_cond_push {α β : Type} (p : α → Bool) (g : α → β) (l : List α)
    (init : List β) :
    l.foldl (fun acc x => if p x then acc ++ [g x] else acc) init
      = init ++ (l.filter p).map g := by
  induction l generalizing init with
  | nil => simp
  | cons x xs ih =>
    by_cases hx : p x = true
    · simp [ih, hx]
    · simp [ih, hx]

theorem plot_var_map_eq_flatMap (isPlotVar : String → Bool)
    (desc_lst : List amrex.StateDescriptor) :
    plot_var_map isPlotVar desc_lst
      = (List.range desc_lst.length).flatMap
          (fun typ => (selectedComps isPlotVar (desc_lst.getD typ default)).map
            (fun comp => (typ, comp))) := by
  unfold plot_var_map selectedComps
  have h : ∀ (acc : List (Nat × Nat)) (typ : Nat),
      (List.range (desc_lst.getD typ default).nComp).foldl
        (fun acc comp =>
          if isPlotVar ((desc_lst.getD typ default).name comp) &&
              ((desc_lst.getD typ default).getType == amrex.IndexType.TheCellType)
          then acc ++ [(typ, comp)]
          else acc) acc
        = acc ++ ((List.range (desc_lst.getD typ default).nComp).filter
            (fun comp => isPlotVar ((desc_lst.getD typ default).name comp) &&
              ((desc_lst.getD typ default).getType == amrex.IndexType.TheCellType))).map
            (fun comp => (typ, comp)) := by
    intro acc typ
    exact foldl_cond_push _ (fun comp => (typ, comp)) _ acc
  simp only [h]
  rw [foldl_append_flatMap]
  simp

theorem plot_var_map_mem (isPlotVar : String → Bool)
    (desc_lst : List amrex.StateDescriptor) (typ comp : Nat) :
    (typ, comp) ∈ plot_var_map isPlotVar desc_lst ↔
      ∃ d, desc_lst.get? typ = some d ∧ comp < d.nComp ∧
        isPlotVar (d.name comp) = true ∧ d.getType = amrex.IndexType.TheCellType := by
  rw [plot_var_map_eq_flatMap]
  simp only [List.mem_flatMap, List.mem_range, List.mem_map, Prod.mk.injEq, selectedComps,
    List.mem_filter, Bool.and_eq_true, beq_iff_eq]
  constructor
  · rintro ⟨t, ht, c, ⟨hc, hp, hty⟩, rfl, rfl⟩
    refine ⟨desc_lst.getD t default, ?_, hc, hp, hty⟩
    rw [List.getD_eq_getElem _ _ ht]
    simp [List.get?_eq_getElem?, ht]
  · rintro ⟨d, hd, hc, hp, hty⟩
    have hlt : typ < desc_lst.length := by
      rw [List.get?_eq_getElem?] at hd
      exact (List.getElem?_eq_some_iff.mp hd).1
    have hd2 : desc_lst.getD typ default = d := by
      rw [List.getD_eq_getElem _ _ hlt]
      rw [List.get?_eq_getElem?] at hd
      exact (List.getElem?_eq_some_iff.mp hd).2
    exact ⟨typ, hlt, comp, by rw [hd2]; exact ⟨hc, hp, hty⟩, rfl, rfl⟩

theorem plot_var_map_pairwise (isPlotVar : String → Bool)
    (desc_lst : List amrex.StateDescriptor) :
    (plot_var_map isPlotVar desc_lst).Pairwise pairLt := by
  rw [plot_var_map_eq_flatMap, List.pairwise_flatMap]
  constructor
  · intro typ _
    rw [List.pairwise_map]
    unfold selectedComps
    apply List.Pairwise.filter
    exact (List.pairwise_lt_range _).imp (fun h => Or.inr ⟨rfl, h⟩)
  · refine (List.pairwise_lt_range _).imp ?_
    intro a b hab x hx y hy
    simp only [List.mem_map] at hx hy
    obtain ⟨_, _, rfl⟩ := hx
    obtain ⟨_, _, rfl⟩ := hy
    exact Or.inl hab

/-- C2: the raw selection `plot_var_map` of `writePlotFile` / `writeSmallPlotFile` holds
exactly the pairs `(slot, component)` with `component < nComp(slot)` whose component name the
predicate accepts and whose slot is cell-centred; it is listed in strictly ascending
lexicographic `(slot, component)` order and has no duplicates. -/
theorem plot_var_map_exact (isPlotVar : String → Bool)
    (desc_lst : List amrex.StateDescriptor) :
    (∀ typ comp, (typ, comp) ∈ plot_var_map isPlotVar desc_lst ↔
      ∃ d, desc_lst.get? typ = some d ∧ comp < d.nComp ∧
        isPlotVar (d.name comp) = true ∧ d.getType = amrex.IndexType.TheCellType) ∧
    (plot_var_map isPlotVar desc_lst).Pairwise pairLt ∧
    (plot_var_map isPlotVar desc_lst).Nodup := by
  refine ⟨plot_var_map_mem isPlotVar desc_lst, plot_var_map_pairwise isPlotVar desc_lst, ?_⟩
  refine (plot_var_map_pairwise isPlotVar desc_lst).imp ?_
  intro a b hab heq
  subst heq
  rcases hab with h | ⟨_, h⟩ <;> exact Nat.lt_irrefl _ h

/-! ## Derived selection -/

theorem derive_selection_foldl (p : String → Bool) (dlist : List amrex.DeriveRec)
    (acc : List String × Nat) :
    dlist.foldl
      (fun (acc : List String × Nat) it =>
        if p it.name then (acc.1 ++ [it.name], acc.2 + it.numDerive) else acc) acc
      = (acc.1 ++ (dlist.filter (fun r => p r.name)).map (fun r => r.name),
          acc.2 + ((dlist.filter (fun r => p r.name)).map (fun r => r.numDerive)).sum) := by
  induction dlist generalizing acc with
  | nil => simp
  | cons x xs ih =>
    by_cases hx : p x.name = true
    · simp [ih, hx, Nat.add_assoc]
    · simp [ih, hx]

theorem derive_selection_names (erf : ERFState) :
    (derive_selection erf.isDerivePlotVar erf.derive_lst.dlist).1
      = (selectedDerived erf).map (fun r => r.name) := by
  simp [derive_selection, derive_selection_foldl, selectedDerived]

theorem derive_selection_num (erf : ERFState) :
    (derive_selection erf.isDerivePlotVar erf.derive_lst.dlist).2
      = ((selectedDerived erf).map (fun r => r.numDerive)).sum := by
  simp [derive_selection, derive_selection_foldl, selectedDerived]

/-- C3: the derived selection `derive_names` of `writePlotFile` is the subsequence of the
registry names, in registration order, that the predicate accepts; `num_derive` is the sum
of `numDerive()` over exactly those entries; and `n_data_items` is the number of selected
raw pairs plus that sum. -/
theorem derive_selection_exact (erf : ERFState) :
    (derive_selection erf.isDerivePlotVar erf.derive_lst.dlist).1
        = (erf.derive_lst.dlist.map (fun r => r.name)).filter erf.isDerivePlotVar ∧
    List.Sublist (derive_selection erf.isDerivePlotVar erf.derive_lst.dlist).1
        (erf.derive_lst.dlist.map (fun r => r.name)) ∧
    (derive_selection erf.isDerivePlotVar erf.derive_lst.dlist).2
        = ((erf.derive_lst.dlist.filter (fun r => erf.isDerivePlotVar r.name)).map
            (fun r => r.numDerive)).sum ∧
    n_data_items erf
        = (plot_var_map erf.isStatePlotVar erf.desc_lst).length +
          ((erf.derive_lst.dlist.filter (fun r => erf.isDerivePlotVar r.name)).map
            (fun r => r.numDerive)).sum := by
  have hnames : (derive_selection erf.isDerivePlotVar erf.derive_lst.dlist).1
      = (erf.derive_lst.dlist.map (fun r => r.name)).filter erf.isDerivePlotVar := by
    rw [derive_selection_names, selectedDerived, List.filter_map]
    rfl
  refine ⟨hnames, ?_, derive_selection_num erf, ?_⟩
  · rw [hnames]
    exact List.filter_sublist _
  · rw [n_data_items, derive_selection_num]
    rfl

/-! ## Sequencing of effects -/

theorem Run.seqAll_emit (evs : List Event) (rs : List Run) :
    Run.seqAll (Run.emit evs :: rs)
      = ⟨evs ++ (Run.seqAll rs).events, (Run.seqAll rs).aborted⟩ := by
  simp [Run.seqAll, Run.emit]

theorem Run.seqAll_abort (ev : Event) (rs : List Run) :
    Run.seqAll (Run.abort ev :: rs) = ⟨[ev], true⟩ := by
  simp [Run.seqAll, Run.abort]

theorem Run.seqAll_cons_events_of_not_aborted (r : Run) (rs : List Run)
    (h : r.aborted = false) :
    Run.seqAll (r :: rs) = ⟨r.events ++ (Run.seqAll rs).events, (Run.seqAll rs).aborted⟩ := by
  simp [Run.seqAll, h]

theorem Run.seqAll_singleton (r : Run) : Run.seqAll [r] = r := by
  obtain ⟨evs, ab⟩ := r
  cases ab <;> simp [Run.seqAll]

theorem osWrite_append (a b : List Tok) : osWrite (a ++ b) = osWrite a ++ osWrite b := by
  simp [osWrite]

theorem forLoop_osWrite (n : Nat) (g : Nat → List Tok) :
    forLoop n (fun i => osWrite (g i)) = osWrite ((List.range n).flatMap g) := by
  simp [forLoop_eq_flatMap, osWrite, List.map_flatMap]

theorem range_flatMap_getD {α β : Type} (l : List α) (d : α) (f : α → List β) :
    (List.range l.length).flatMap (fun i => f (l.getD i d)) = l.flatMap f := by
  induction l with
  | nil => simp
  | cons x xs ih =>
    rw [List.length_cons, List.range_succ_eq_map]
    simp only [List.flatMap_cons, List.flatMap_map, List.getD_cons_zero]
    congr 1

/-! ## The header written by `writePlotFile` -/

theorem writeStateNames_eq (desc_lst : List amrex.StateDescriptor) (pvm : List (Nat × Nat)) :
    writeStateNames desc_lst pvm
      = osWrite ((pvm.map (fun p => (desc_lst.getD p.1 default).name p.2)).flatMap
          (fun nm => record [Tok.str nm])) := by
  unfold writeStateNames
  rw [forLoop_eq_flatMap]
  rw [range_flatMap_getD pvm (0, 0)
    (fun p => osWrite [Tok.str ((desc_lst.getD p.1 default).name p.2), Tok.chr '\n'])]
  simp [osWrite, record, List.map_flatMap, List.flatMap_map]

theorem writeDeriveNames_eq (dl : amrex.DeriveList) (sel : List amrex.DeriveRec)
    (h : ∀ r ∈ sel, dl.get r.name = some r) :
    writeDeriveNames dl (sel.map (fun r => r.name))
      = Run.emit (osWrite ((sel.flatMap
          (fun r => (List.range r.numDerive).map r.variableName)).flatMap
            (fun nm => record [Tok.str nm]))) := by
  unfold writeDeriveNames
  induction sel with
  | nil => simp [Run.seqAll, Run.emit, osWrite]
  | cons r rs ih =>
    have hr : dl.get r.name = some r := h r (List.mem_cons_self _ _)
    have hrs : ∀ q ∈ rs, dl.get q.name = some q := fun q hq => h q (List.mem_cons_of_mem _ hq)
    rw [List.map_cons, List.map_cons, hr]
    simp only
    rw [Run.seqAll_emit, ih hrs]
    simp [Run.emit, forLoop_eq_flatMap, osWrite, record, List.map_flatMap, List.flatMap_map,
      List.flatMap_append]

theorem writeGeometry_eq (erf : ERFState) :
    writeGeometry erf
      = osWrite ((
          [[Tok.int AMREX_SPACEDIM],
           [Tok.real erf.cumTime],
           [Tok.int erf.finestLevel],
           blanks ((List.range AMREX_SPACEDIM).map (fun i => Tok.real (erf.ProbLo i))),
           blanks ((List.range AMREX_SPACEDIM).map (fun i => Tok.real (erf.ProbHi i))),
           blanks ((List.range erf.finestLevel).map (fun i => Tok.int (erf.refRatio i))),
           blanks ((List.range (erf.finestLevel + 1)).map (fun i => Tok.box (erf.Domain i))),
           blanks ((List.range (erf.finestLevel + 1)).map
             (fun i => Tok.int (erf.levelSteps i)))] ++
          (List.range (erf.finestLevel + 1)).map
            (fun i => blanks ((List.range AMREX_SPACEDIM).map
              (fun k => Tok.real (erf.CellSize i k)))) ++
          [[Tok.int erf.Coord], [Tok.str "0"]]).flatMap record) := by
  unfold writeGeometry
  simp only [forLoop_eq_flatMap, osWrite, record, blanks, List.map_flatMap, List.flatMap_map,
    List.flatMap_append, List.map_append, List.flatMap_cons, List.flatMap_nil, List.map_cons,
    List.map_nil, List.append_assoc, List.cons_append, List.nil_append, List.append_nil,
    List.singleton_append]

theorem variableNames_length (erf : ERFState) :
    (variableNames erf).length = n_data_items erf := by
  unfold variableNames n_data_items
  rw [derive_selection_num, List.length_append, List.length_map, List.length_flatMap]
  congr 1
  induction selectedDerived erf with
  | nil => rfl
  | cons r rs ih => simp [ih]

theorem writePlotFile_header_eq (erf : ERFState) (dir : String)
    (hn : n_data_items erf ≠ 0) (hget : LookupConsistent erf) :
    writePlotFile_header erf dir (plot_var_map erf.isStatePlotVar erf.desc_lst)
        (derive_selection erf.isDerivePlotVar erf.derive_lst.dlist).1 (n_data_items erf)
      = Run.emit (osWrite ((PlotFileHeader erf).flatMap record) ++ [Event.writeJobInfo dir]) := by
  unfold writePlotFile_header
  have hn2 : (n_data_items erf == 0) = false := by simpa using hn
  rw [derive_selection_names, writeDeriveNames_eq _ _ hget, writeStateNames_eq,
    writeGeometry_eq, hn2]
  simp only [Run.seqAll_emit, Bool.false_eq_true, if_false, Run.seqAll, Run.emit]
  simp only [PlotFileHeader, variableNames, osWrite, record, List.map_append,
    List.flatMap_append, List.flatMap_map, List.map_flatMap, List.flatMap_cons,
    List.flatMap_nil, List.map_cons, List.map_nil, List.append_assoc, List.cons_append,
    List.nil_append, List.append_nil, List.singleton_append, List.flatMap_assoc,
    List.map_map, Function.comp_def]

theorem makeLevelDirectory_coordinator (mkdirOk : Bool) (path : String) :
    ∃ rest aborted, makeLevelDirectory true mkdirOk path
      = ⟨Event.UtilCreateDirectory path :: rest, aborted⟩ := by
  cases mkdirOk <;> simp [makeLevelDirectory, Run.seqAll, Run.emit, Run.abort]

theorem writePlotFile_level_coordinator (mkdirOk : Bool) (erf : ERFState) (dir : String)
    (how : Nat) (pvm : List (Nat × Nat)) (derive_names : List String) (n : Nat)
    (cur_time : amrex.Real) :
    ∃ rest aborted, writePlotFile_level true mkdirOk erf dir how pvm derive_names n cur_time
      = ⟨Event.UtilCreateDirectory (FullPath dir erf.level) :: rest, aborted⟩ := by
  obtain ⟨rest, ab, h⟩ := makeLevelDirectory_coordinator mkdirOk (FullPath dir erf.level)
  unfold writePlotFile_level
  cases hab : ab
  · subst hab
    rw [Run.seqAll_cons_events_of_not_aborted _ _ (by rw [h]), h]
    exact ⟨_, _, rfl⟩
  · subst hab
    refine ⟨rest, true, ?_⟩
    simp [Run.seqAll, h]

/-- The whole run of `writePlotFile` on the I/O processor at level 0 for a non-empty
selection: the header, the job information file, then the level part. -/
theorem writePlotFile_coordinator (mkdirOk : Bool) (State_Type : Nat) (erf : ERFState)
    (dir : String) (how : Nat) (hlev : erf.level = 0) (hn : n_data_items erf ≠ 0)
    (hget : LookupConsistent erf) :
    ∃ rest aborted, writePlotFile true mkdirOk State_Type erf dir how
      = ⟨Event.cout "writePlotFile_00" ::
          (osWrite ((PlotFileHeader erf).flatMap record) ++
            Event.writeJobInfo dir ::
            Event.UtilCreateDirectory (FullPath dir erf.level) :: rest), aborted⟩ := by
  obtain ⟨rest, ab, h⟩ := writePlotFile_level_coordinator mkdirOk erf dir how
    (plot_var_map erf.isStatePlotVar erf.desc_lst)
    (derive_selection erf.isDerivePlotVar erf.derive_lst.dlist).1 (n_data_items erf)
    ((erf.state.getD State_Type default).curTime)
  have hh := writePlotFile_header_eq erf dir hn hget
  refine ⟨rest, ab, ?_⟩
  unfold writePlotFile
  simp only [hlev, beq_self_eq_true, Bool.and_self, if_true]
  rw [Run.seqAll_emit]
  change Run.mk _ _ = _
  have e1 : (plot_var_map erf.isStatePlotVar erf.desc_lst).length +
      (derive_selection erf.isDerivePlotVar erf.derive_lst.dlist).2 = n_data_items erf := rfl
  rw [e1, hh, Run.seqAll_emit, Run.seqAll_singleton, h]
  simp [hlev]

theorem scenario_lookup : LookupConsistent scenario := by
  intro r hr
  have h : r = speedRec := by
    simpa [selectedDerived, scenario] using hr
  subst h
  rfl

/-- C4 as stated fails on a registry that holds two records under one name. Both records
named `Dv` (1 and 2 components) are selected, so `num_derive` counts 3 and the header gives
the variable count 7; the names are then written from the record the lookup by name
returns, the first one, each time: only 6 variable-name lines follow the count, and the
dimension line comes next. -/
theorem writePlotFile_variable_names_counterexample :
    n_data_items scenarioDup = 7 ∧
    (derive_selection scenarioDup.isDerivePlotVar scenarioDup.derive_lst.dlist).1
      = ["Dv", "Dv"] ∧
    (derive_selection scenarioDup.isDerivePlotVar scenarioDup.derive_lst.dlist).2 = 3 ∧
    (osText (writePlotFile true true 0 scenarioDup "plt00000" 0).events).take 18
      = [Tok.str "HyperCLaw-V1.1", Tok.chr '\n', Tok.int 7, Tok.chr '\n',
          Tok.str "slot0.c0", Tok.chr '\n', Tok.str "slot0.c1", Tok.chr '\n',
          Tok.str "slot0.c2", Tok.chr '\n', Tok.str "slot1.c0", Tok.chr '\n',
          Tok.str "Dv", Tok.chr '\n', Tok.str "Dv", Tok.chr '\n',
          Tok.int 3, Tok.chr '\n'] := by
  decide

/-- C4, amended: on the I/O processor at level 0, for a non-empty selection over a registry
whose lookup by name returns, for the name of each selected record, that record,
`writePlotFile` writes the plot-type tag, then the variable count
`n_data_items`, then exactly `n_data_items` variable-name lines (the names of the selected
state components in `plot_var_map` order, then the component names of each selected derived
variable in selection order), and continues with the dimension line. -/
theorem writePlotFile_variable_names (mkdirOk : Bool) (State_Type : Nat) (erf : ERFState)
    (dir : String) (how : Nat) (hlev : erf.level = 0) (hn : n_data_items erf ≠ 0)
    (hget : LookupConsistent erf) :
    (variableNames erf).length = n_data_items erf ∧
    ∃ rest aborted, writePlotFile true mkdirOk State_Type erf dir how
      = ⟨Event.cout "writePlotFile_00" ::
          (osWrite (record [Tok.str erf.thePlotFileType] ++
              record [Tok.int (n_data_items erf)] ++
              (variableNames erf).flatMap (fun nm => record [Tok.str nm]) ++
              record [Tok.int AMREX_SPACEDIM]) ++ rest), aborted⟩ := by
  refine ⟨variableNames_length erf, ?_⟩
  obtain ⟨rest, ab, h⟩ := writePlotFile_coordinator mkdirOk State_Type erf dir how hlev hn hget
  rw [h]
  refine ⟨osWrite ((
      [[Tok.real erf.cumTime],
       [Tok.int erf.finestLevel],
       blanks ((List.range AMREX_SPACEDIM).map (fun i => Tok.real (erf.ProbLo i))),
       blanks ((List.range AMREX_SPACEDIM).map (fun i => Tok.real (erf.ProbHi i))),
       blanks ((List.range erf.finestLevel).map (fun i => Tok.int (erf.refRatio i))),
       blanks ((List.range (erf.finestLevel + 1)).map (fun i => Tok.box (erf.Domain i))),
       blanks ((List.range (erf.finestLevel + 1)).map
         (fun i => Tok.int (erf.levelSteps i)))] ++
      (List.range (erf.finestLevel + 1)).map
        (fun i => blanks ((List.range AMREX_SPACEDIM).map
          (fun k => Tok.real (erf.CellSize i k)))) ++
      [[Tok.int erf.Coord], [Tok.str "0"]]).flatMap record) ++
    Event.writeJobInfo dir :: Event.UtilCreateDirectory (FullPath dir erf.level) :: rest,
    ab, ?_⟩
  simp only [PlotFileHeader, osWrite, record, List.map_append, List.flatMap_append,
    List.flatMap_map, List.flatMap_cons, List.flatMap_nil, List.map_cons, List.map_nil,
    List.append_assoc, List.cons_append, List.nil_append, List.append_nil,
    List.singleton_append]

/-- The scenario of C4: two slots of 3 and 1 components and the derived variable `Speed` of
one component, all selected, give the count 5 and the names in the stated order. -/
theorem writePlotFile_variable_names_witness :
    scenario.level = 0 ∧ n_data_items scenario = 5 ∧
    variableNames scenario = ["slot0.c0", "slot0.c1", "slot0.c2", "slot1.c0", "Speed"] ∧
    ((variableNames scenario).length = n_data_items scenario ∧
      ∃ rest aborted, writePlotFile true true 0 scenario "plt00000" 0
        = ⟨Event.cout "writePlotFile_00" ::
            (osWrite (record [Tok.str scenario.thePlotFileType] ++
                record [Tok.int (n_data_items scenario)] ++
                (variableNames scenario).flatMap (fun nm => record [Tok.str nm]) ++
                record [Tok.int AMREX_SPACEDIM]) ++ rest), aborted⟩) :=
  ⟨rfl, by decide, by decide,
    writePlotFile_variable_names true 0 scenario "plt00000" 0 rfl (by decide) scenario_lookup⟩

/-- C10 as stated fails on a registry that holds two records under one name: the header
`writePlotFile` writes before the job information file is not the sequence of records of
`PlotFileHeader`. It has 19 lines where the format has 20 (variable count 7, hence 7
variable names), because the names of both records named `Dv` are written from the first
one, which has a single component. -/
theorem writePlotFile_header_records_counterexample :
    n_data_items scenarioDup ≠ 0 ∧ scenarioDup.level = 0 ∧
    (writePlotFile true true 0 scenarioDup "plt00000" 0).aborted = false ∧
    osText ((writePlotFile true true 0 scenarioDup "plt00000" 0).events.takeWhile
        (fun e => e != Event.writeJobInfo "plt00000"))
      ≠ (PlotFileHeader scenarioDup).flatMap record ∧
    (osText ((writePlotFile true true 0 scenarioDup "plt00000" 0).events.takeWhile
        (fun e => e != Event.writeJobInfo "plt00000"))).count (Tok.chr '\n') = 19 ∧
    (PlotFileHeader scenarioDup).length = 20 := by
  decide

/-- C10, amended: on the I/O processor at level 0, for a non-empty selection over a registry
whose lookup by name returns, for the name of each selected record, that record, the
values `writePlotFile` inserts into the header stream before it
writes the job information file and creates the level directory are exactly the records of
`PlotFileHeader`, in order, each ended by a newline: plot-type tag; variable count; the
variable names; dimension count; cumulative time; finest level `f`; domain low; domain
high; `f` refinement ratios; `f + 1` level domains; `f + 1` step counts; `f + 1` lines of
cell sizes; coordinate system; the literal `0`. -/
theorem writePlotFile_header_records (mkdirOk : Bool) (State_Type : Nat) (erf : ERFState)
    (dir : String) (how : Nat) (hlev : erf.level = 0) (hn : n_data_items erf ≠ 0)
    (hget : LookupConsistent erf) :
    (∃ rest aborted, writePlotFile true mkdirOk State_Type erf dir how
      = ⟨Event.cout "writePlotFile_00" ::
          (osWrite ((PlotFileHeader erf).flatMap record) ++
            Event.writeJobInfo dir ::
            Event.UtilCreateDirectory (FullPath dir erf.level) :: rest), aborted⟩) ∧
    (PlotFileHeader erf).length = n_data_items erf + erf.finestLevel + 13 := by
  refine ⟨writePlotFile_coordinator mkdirOk State_Type erf dir how hlev hn hget, ?_⟩
  simp only [PlotFileHeader, List.length_append, List.length_map, List.length_cons,
    List.length_nil, List.length_range, variableNames_length]
  omega

/-- The header of the concrete run has 5 + 0 + 13 = 18 records. -/
theorem writePlotFile_header_records_witness :
    scenario.level = 0 ∧ n_data_items scenario ≠ 0 ∧
    ((∃ rest aborted, writePlotFile true true 0 scenario "plt00000" 0
      = ⟨Event.cout "writePlotFile_00" ::
          (osWrite ((PlotFileHeader scenario).flatMap record) ++
            Event.writeJobInfo "plt00000" ::
            Event.UtilCreateDirectory (FullPath "plt00000" scenario.level) :: rest),
          aborted⟩) ∧
      (PlotFileHeader scenario).length = n_data_items scenario + scenario.finestLevel + 13) :=
  ⟨rfl, by decide,
    writePlotFile_header_records true 0 scenario "plt00000" 0 rfl (by decide) scenario_lookup⟩

/-! ## The empty selection -/

theorem Run.mem_seqAll (e : Event) (rs : List Run) (h : e ∈ (Run.seqAll rs).events) :
    ∃ r ∈ rs, e ∈ r.events := by
  induction rs with
  | nil => simp [Run.seqAll] at h
  | cons r rs ih =>
    by_cases hr : r.aborted = true
    · simp only [Run.seqAll, hr, if_true] at h
      exact ⟨r, List.mem_cons_self _ _, h⟩
    · simp only [Run.seqAll, hr, Bool.false_eq_true, if_false, List.mem_append] at h
      rcases h with h | h
      · exact ⟨r, List.mem_cons_self _ _, h⟩
      · obtain ⟨q, hq, hmem⟩ := ih h
        exact ⟨q, List.mem_cons_of_mem _ hq, hmem⟩

theorem mem_osWrite (e : Event) (ts : List Tok) (h : e ∈ osWrite ts) : ∃ t, e = Event.os t := by
  simp only [osWrite, List.mem_map] at h
  obtain ⟨t, _, rfl⟩ := h
  exact ⟨t, rfl⟩

theorem mem_forLoop {α : Type} (e : α) (n : Nat) (body : Nat → List α) :
    e ∈ forLoop n body ↔ ∃ i, i < n ∧ e ∈ body i := by
  simp [forLoop_eq_flatMap, List.mem_flatMap]

theorem mem_writeLevelRecords (e : Event) (erf : ERFState) (t : amrex.Real) (n : Nat)
    (h : e ∈ writeLevelRecords erf t n) : ∃ tok, e = Event.os tok := by
  unfold writeLevelRecords at h
  simp only [List.mem_append, mem_forLoop] at h
  rcases h with ((h | h) | ⟨i, _, k, _, h⟩) | h
  · exact mem_osWrite _ _ h
  · exact mem_osWrite _ _ h
  · exact mem_osWrite _ _ h
  · split at h
    · exact mem_osWrite _ _ h
    · simp at h

theorem mem_makeLevelDirectory (e : Event) (io ok : Bool) (path : String)
    (h : e ∈ (makeLevelDirectory io ok path).events) :
    e = Event.UtilCreateDirectory path ∨ e = Event.CreateDirectoryFailed path := by
  cases io <;> cases ok <;>
    simp [makeLevelDirectory, Run.seqAll, Run.emit, Run.abort] at h <;> tauto

theorem writePlotFile_level_no_error (msg : String) (io ok : Bool) (erf : ERFState)
    (dir : String) (how : Nat) (pvm : List (Nat × Nat)) (names : List String) (n : Nat)
    (t : amrex.Real) :
    Event.Error msg ∉ (writePlotFile_level io ok erf dir how pvm names n t).events := by
  intro h
  obtain ⟨r, hr, hmem⟩ := Run.mem_seqAll _ _ h
  simp only [List.mem_cons, List.mem_singleton, List.not_mem_nil, or_false] at hr
  rcases hr with rfl | rfl | rfl | rfl
  · rcases mem_makeLevelDirectory _ _ _ _ hmem with h1 | h1 <;> cases h1
  · simp [Run.emit] at hmem
  · cases io
    · simp [Run.emit] at hmem
    · simp only [if_true, Run.emit] at hmem
      obtain ⟨tok, htok⟩ := mem_writeLevelRecords _ _ _ _ hmem
      cases htok
  · split at hmem <;> simp [Run.emit, Run.abort] at hmem

theorem writeSmallPlotFile_level_no_error (msg : String) (io ok : Bool) (erf : ERFState)
    (dir : String) (how : Nat) (pvm : List (Nat × Nat)) (n : Nat) (t : amrex.Real) :
    Event.Error msg ∉ (writeSmallPlotFile_level io ok erf dir how pvm n t).events := by
  intro h
  obtain ⟨r, hr, hmem⟩ := Run.mem_seqAll _ _ h
  simp only [List.mem_cons, List.mem_singleton, List.not_mem_nil, or_false] at hr
  rcases hr with rfl | rfl | rfl | rfl
  · rcases mem_makeLevelDirectory _ _ _ _ hmem with h1 | h1 <;> cases h1
  · simp [Run.emit] at hmem
  · cases io
    · simp [Run.emit] at hmem
    · simp only [if_true, Run.emit, List.mem_append] at hmem
      rcases hmem with hmem | hmem
      · obtain ⟨tok, htok⟩ := mem_writeLevelRecords _ _ _ _ hmem
        cases htok
      · obtain ⟨tok, htok⟩ := mem_osWrite _ _ hmem
        cases htok
  · simp [Run.emit] at hmem

/-- C1 as stated fails. With nothing selected (`n_data_items = 0`): on the I/O processor at
level 0 `writePlotFile` has already inserted the plot-file type and a newline into the
header stream when it calls `amrex::Error` (likewise `writeSmallPlotFile`); at level 1, and
on a worker that is not the I/O processor, the call does not raise the error at all and
goes on to create the level directory and to the bulk write. -/
theorem empty_selection_counterexample :
    n_data_items scenarioNone = 0 ∧
    (plot_var_map scenarioNone.isStateSmallPlotVar scenarioNone.desc_lst).length = 0 ∧
    writePlotFile true true 0 scenarioNone "plt00000" 0
      = ⟨[Event.cout "writePlotFile_00", Event.os (Tok.str "HyperCLaw-V1.1"),
          Event.os (Tok.chr '\n'), Event.Error noDataItemsMsg], true⟩ ∧
    writeSmallPlotFile true true 0 scenarioNone "plt00000" 0
      = ⟨[Event.os (Tok.str "HyperCLaw-V1.1"), Event.os (Tok.chr '\n'),
          Event.Error noDataItemsMsg], true⟩ ∧
    (writePlotFile true true 0 { scenarioNone with level := 1, finestLevel := 1 }
        "plt00000" 0).aborted = false ∧
    Event.Error noDataItemsMsg ∉
      (writePlotFile true true 0 { scenarioNone with level := 1, finestLevel := 1 }
        "plt00000" 0).events ∧
    Event.UtilCreateDirectory "plt00000/Level_1" ∈
      (writePlotFile true true 0 { scenarioNone with level := 1, finestLevel := 1 }
        "plt00000" 0).events ∧
    writePlotFile false true 0 scenarioNone "plt00000" 0
      = ⟨[Event.cout "writePlotFile_00", Event.Barrier,
          Event.VisMFWrite ⟨[]⟩ "plt00000/Level_0/Cell" 0], false⟩ ∧
    writeSmallPlotFile false true 0 scenarioNone "plt00000" 0
      = ⟨[Event.Barrier, Event.VisMFWrite ⟨[]⟩ "plt00000/Level_0/Cell" 0], false⟩ := by
  decide

/-- C1, amended: with an empty selection, on the I/O processor at level 0 the export call
(`writePlotFile`, `writeSmallPlotFile`) fails with the error 'Must specify at least one valid
data item to plot' after inserting only the plot-file type line into the header stream;
nothing has been written to the file system before the failure (no job information file, no
directory, no bulk data). On any other worker or level the call does not raise this
error. -/
theorem empty_selection_error (IOProcessor mkdirOk : Bool) (State_Type : Nat)
    (erf : ERFState) (dir : String) (how : Nat) :
    (n_data_items erf = 0 →
      (erf.level = 0 ∧ IOProcessor = true →
        writePlotFile IOProcessor mkdirOk State_Type erf dir how
          = ⟨[Event.cout "writePlotFile_00", Event.os (Tok.str erf.thePlotFileType),
              Event.os (Tok.chr '\n'), Event.Error noDataItemsMsg], true⟩) ∧
      (¬(erf.level = 0 ∧ IOProcessor = true) →
        Event.Error noDataItemsMsg ∉
          (writePlotFile IOProcessor mkdirOk State_Type erf dir how).events)) ∧
    ((plot_var_map erf.isStateSmallPlotVar erf.desc_lst).length = 0 →
      (erf.level = 0 ∧ IOProcessor = true →
        writeSmallPlotFile IOProcessor mkdirOk State_Type erf dir how
          = ⟨[Event.os (Tok.str erf.thePlotFileType), Event.os (Tok.chr '\n'),
              Event.Error noDataItemsMsg], true⟩) ∧
      (¬(erf.level = 0 ∧ IOProcessor = true) →
        Event.Error noDataItemsMsg ∉
          (writeSmallPlotFile IOProcessor mkdirOk State_Type erf dir how).events)) := by
  refine ⟨fun hn => ⟨?_, ?_⟩, fun hn => ⟨?_, ?_⟩⟩
  · rintro ⟨hlev, rfl⟩
    have e1 : (plot_var_map erf.isStatePlotVar erf.desc_lst).length +
        (derive_selection erf.isDerivePlotVar erf.derive_lst.dlist).2 = 0 := hn
    simp [writePlotFile, writePlotFile_header, hlev, e1, Run.seqAll, Run.emit, Run.abort,
      osWrite]
  · intro hno h
    have hc : (erf.level == 0 && IOProcessor) = false := by
      cases hio : IOProcessor
      · simp
      · simp only [Bool.and_true, beq_eq_false_iff_ne, ne_eq]
        exact fun hl => hno ⟨hl, hio⟩
    unfold writePlotFile at h
    simp only [hc, Bool.false_eq_true, if_false] at h
    obtain ⟨r, hr, hmem⟩ := Run.mem_seqAll _ _ h
    simp only [List.mem_cons, List.mem_singleton, List.not_mem_nil, or_false] at hr
    rcases hr with rfl | rfl | rfl
    · simp [Run.emit] at hmem
    · simp [Run.emit] at hmem
    · exact writePlotFile_level_no_error _ _ _ _ _ _ _ _ _ _ hmem
  · rintro ⟨hlev, rfl⟩
    simp [writeSmallPlotFile, writeSmallPlotFile_header, hlev, hn, Run.seqAll, Run.emit,
      Run.abort, osWrite]
  · intro hno h
    have hc : (erf.level == 0 && IOProcessor) = false := by
      cases hio : IOProcessor
      · simp
      · simp only [Bool.and_true, beq_eq_false_iff_ne, ne_eq]
        exact fun hl => hno ⟨hl, hio⟩
    unfold writeSmallPlotFile at h
    simp only [hc, Bool.false_eq_true, if_false] at h
    obtain ⟨r, hr, hmem⟩ := Run.mem_seqAll _ _ h
    simp only [List.mem_cons, List.mem_singleton, List.not_mem_nil, or_false] at hr
    rcases hr with rfl | rfl
    · simp [Run.emit] at hmem
    · exact writeSmallPlotFile_level_no_error _ _ _ _ _ _ _ _ _ hmem

/-- The amended C1 on the concrete run with nothing selected, on the I/O processor at
level 0. -/
theorem empty_selection_error_witness :
    n_data_items scenarioNone = 0 ∧ scenarioNone.level = 0 ∧
    writePlotFile true true 0 scenarioNone "plt00000" 0
      = ⟨[Event.cout "writePlotFile_00", Event.os (Tok.str scenarioNone.thePlotFileType),
          Event.os (Tok.chr '\n'), Event.Error noDataItemsMsg], true⟩ :=
  ⟨by decide, rfl,
    ((empty_selection_error true true 0 scenarioNone "plt00000" 0).1 (by decide)).1
      ⟨rfl, rfl⟩⟩

/-! ## `restart`: the flags and the migration loop -/

theorem set_state_in_checkpoint_succ (W n : Nat) (flags : List Int) :
    set_state_in_checkpoint W (n + 1) flags
      = if n = W then ((set_state_in_checkpoint W n flags).set n 1).set n 0
        else (set_state_in_checkpoint W n flags).set n 1 := by
  simp [set_state_in_checkpoint, List.range_succ, List.foldl_append]

theorem set_state_in_checkpoint_spec (W n : Nat) (flags : List Int) :
    (set_state_in_checkpoint W n flags).length = flags.length ∧
    ∀ i, (set_state_in_checkpoint W n flags)[i]?
      = if i < n ∧ i < flags.length then some (if i = W then 0 else 1) else flags[i]? := by
  induction n with
  | zero => simp [set_state_in_checkpoint]
  | succ n ih =>
    obtain ⟨hlen, hget⟩ := ih
    rw [set_state_in_checkpoint_succ]
    constructor
    · split <;> simp [hlen]
    · intro i
      by_cases hin : i = n
      · subst hin
        have hnone : ¬ i < flags.length → flags[i]? = none :=
          fun h => List.getElem?_eq_none (by omega)
        by_cases hW : i = W
        · subst hW
          by_cases hL : i < flags.length
          · simp [List.getElem?_set, hlen, hL]
          · simp [List.getElem?_set, hlen, hL, hnone hL]
        · by_cases hL : i < flags.length
          · simp [hW, List.getElem?_set, hlen, hL]
          · simp [hW, List.getElem?_set, hlen, hL, hnone hL]
      · have hne : n ≠ i := fun h => hin h.symm
        have e : (i < n + 1 ∧ i < flags.length) ↔ (i < n ∧ i < flags.length) := by omega
        split <;> simp only [List.getElem?_set_ne hne, hget i, e]

theorem migrateStep_present (desc_lst : List amrex.StateDescriptor) (flags : List Int)
    (st : List amrex.StateData) (i : Nat) (h : flags.getD i 1 ≠ 0) :
    migrateStep desc_lst flags (some st) i = some st := by
  have hb : (flags.getD i 1 == 0) = false := beq_eq_false_iff_ne.mpr h
  simp only [migrateStep, hb, Bool.false_eq_true, if_false]

theorem migrateStep_absent (desc_lst : List amrex.StateDescriptor) (flags : List Int)
    (st : List amrex.StateData) (j : Nat) (h : flags.getD (j + 1) 1 = 0) :
    migrateStep desc_lst flags (some st) (j + 1)
      = some (st.set (j + 1) (st.getD j default)) := by
  simp only [migrateStep, h, beq_self_eq_true, if_true]
  rw [List.set_set]
  have e : ∀ x : amrex.StateData, (st.set (j + 1) x).getD j default = st.getD j default := by
    intro x
    rw [List.getD_eq_getElem?_getD, List.getD_eq_getElem?_getD,
      List.getElem?_set_ne (by omega)]
  rw [e]

/-- The state of the migration loop after its first `n` iterations, when slot 0 is not marked
absent: the loop has not failed; slots not yet visited and slots marked present are
unchanged; a visited slot marked absent equals its predecessor. -/
theorem migrate_prefix (desc_lst : List amrex.StateDescriptor) (flags : List Int)
    (state : List amrex.StateData) (h0 : flags.getD 0 1 ≠ 0) (n : Nat) :
    ∃ st, (List.range n).foldl (migrateStep desc_lst flags) (some state) = some st ∧
      st.length = state.length ∧
      (∀ j, n ≤ j → st[j]? = state[j]?) ∧
      (∀ j, flags.getD j 1 ≠ 0 → st[j]? = state[j]?) ∧
      (∀ j, j < n → flags.getD j 1 = 0 → j < state.length → st[j]? = st[j - 1]?) := by
  induction n with
  | zero => exact ⟨state, rfl, rfl, fun _ _ => rfl, fun _ _ => rfl, fun j hj => by omega⟩
  | succ n ih =>
    obtain ⟨st, hst, hlen, hrest, hpres, habs⟩ := ih
    rw [List.range_succ, List.foldl_append, hst, List.foldl_cons, List.foldl_nil]
    by_cases hn : flags.getD n 1 = 0
    · obtain ⟨m, rfl⟩ : ∃ m, n = m + 1 := by
        cases n with
        | zero => exact absurd hn h0
        | succ m => exact ⟨m, rfl⟩
      rw [migrateStep_absent _ _ _ _ hn]
      refine ⟨_, rfl, by simp [hlen], ?_, ?_, ?_⟩
      · intro j hj
        rw [List.getElem?_set_ne (by omega)]
        exact hrest j (by omega)
      · intro j hj
        have hne : m + 1 ≠ j := fun h => hj (h ▸ hn)
        rw [List.getElem?_set_ne hne]
        exact hpres j hj
      · intro j hj hfj hjl
        by_cases hjm : j = m + 1
        · subst hjm
          have hm : m < st.length := by omega
          rw [List.getElem?_set, if_pos rfl, if_pos (by omega), Nat.add_sub_cancel,
            List.getElem?_set_ne (by omega), List.getD_eq_getElem _ _ hm,
            List.getElem?_eq_getElem hm]
        · have hj0 : j ≠ 0 := fun h => h0 (h ▸ hfj)
          rw [List.getElem?_set_ne (fun h => hjm h.symm), List.getElem?_set_ne (by omega)]
          exact habs j (by omega) hfj hjl
    · rw [migrateStep_present _ _ _ _ hn]
      refine ⟨st, rfl, hlen, fun j hj => hrest j (by omega), hpres, ?_⟩
      intro j hj hfj hjl
      have hjn : j ≠ n := fun h => hn (h ▸ hfj)
      exact habs j (by omega) hfj hjl

theorem flags_getD (W n L : Nat) (i : Nat) :
    (set_state_in_checkpoint W n (List.replicate L 1)).getD i 1
      = if i < n ∧ i < L ∧ i = W then 0 else 1 := by
  rw [List.getD_eq_getElem?_getD, (set_state_in_checkpoint_spec W n _).2 i]
  simp only [List.length_replicate, List.getElem?_replicate]
  by_cases h3 : i = W
  · subst h3
    by_cases h1 : i < n <;> by_cases h2 : i < L <;> simp [h1, h2]
  · by_cases h1 : i < n <;> by_cases h2 : i < L <;> simp [h1, h2, h3]

/-- C5: for every slot list and every slot index `k > 0` that `set_state_in_checkpoint` marks
absent, the migration loop of `restart` completes and leaves slot `k` equal to slot `k - 1`
(descriptor, time and field data), slot `k - 1` being the instance held before the loop. -/
theorem restart_copies_predecessor (Work_Estimate_Type : Nat) (erf : ERFState) (k : Nat)
    (hk : 0 < k) (hks : k < erf.state.length)
    (habs : (set_state_in_checkpoint Work_Estimate_Type erf.num_state_type
      (List.replicate erf.desc_lst.length 1)).getD k 1 = 0) :
    ∃ st, restart_state Work_Estimate_Type erf = some st ∧
      st.length = erf.state.length ∧
      st.get? k = st.get? (k - 1) ∧
      st.get? (k - 1) = erf.state.get? (k - 1) := by
  have hfl := flags_getD Work_Estimate_Type erf.num_state_type erf.desc_lst.length
  have hkW : k < erf.num_state_type ∧ k < erf.desc_lst.length ∧ k = Work_Estimate_Type := by
    have := hfl k
    rw [habs] at this
    by_contra hc
    rw [if_neg hc] at this
    exact absurd this (by decide)
  have h0 : (set_state_in_checkpoint Work_Estimate_Type erf.num_state_type
      (List.replicate erf.desc_lst.length 1)).getD 0 1 ≠ 0 := by
    rw [hfl 0, if_neg (by omega)]
    decide
  have hk1 : (set_state_in_checkpoint Work_Estimate_Type erf.num_state_type
      (List.replicate erf.desc_lst.length 1)).getD (k - 1) 1 ≠ 0 := by
    rw [hfl (k - 1), if_neg (by omega)]
    decide
  obtain ⟨st, hst, hlen, _, hpres, hab⟩ :=
    migrate_prefix erf.desc_lst _ erf.state h0 erf.desc_lst.length
  refine ⟨st, hst, hlen, ?_, ?_⟩
  · rw [List.get?_eq_getElem?, List.get?_eq_getElem?]
    exact hab k hkW.2.1 habs hks
  · rw [List.get?_eq_getElem?, List.get?_eq_getElem?]
    exact hpres (k - 1) hk1

/-- C7: called with one flag per state type, `set_state_in_checkpoint` returns one flag per
state type, and the flag of slot `i` is 0 exactly when `i` is `Work_Estimate_Type` and 1
otherwise, whatever the flags held before; the checkpoint version is not an input. -/
theorem set_state_in_checkpoint_flags (Work_Estimate_Type num_state_type : Nat)
    (state_in_checkpoint : List Int) (hn : num_state_type = state_in_checkpoint.length) :
    (set_state_in_checkpoint Work_Estimate_Type num_state_type state_in_checkpoint).length
      = state_in_checkpoint.length ∧
    ∀ i, i < state_in_checkpoint.length →
      ((set_state_in_checkpoint Work_Estimate_Type num_state_type state_in_checkpoint).get? i
          = some 0 ↔ i = Work_Estimate_Type) ∧
      ((set_state_in_checkpoint Work_Estimate_Type num_state_type state_in_checkpoint).get? i
          = some 1 ↔ i ≠ Work_Estimate_Type) := by
  refine ⟨(set_state_in_checkpoint_spec _ _ _).1, ?_⟩
  intro i hi
  rw [List.get?_eq_getElem?, (set_state_in_checkpoint_spec _ _ _).2 i,
    if_pos ⟨by omega, hi⟩]
  by_cases h : i = Work_Estimate_Type <;> simp [h]

/-- The scenario of C5: slot 2 is the absent slot and slot 1 is present; after the migration
loop slot 2 is a copy of slot 1. -/
theorem restart_copies_predecessor_witness :
    (0 < 2 ∧ 2 < scenarioThree.state.length ∧
      (set_state_in_checkpoint 2 scenarioThree.num_state_type
        (List.replicate scenarioThree.desc_lst.length 1)).getD 2 1 = 0) ∧
    restart_state 2 scenarioThree
      = some [⟨⟨amrex.IndexType.TheCellType, ["slot0.c0", "slot0.c1", "slot0.c2"]⟩, ⟨10⟩,
          ⟨[[⟨1⟩], [⟨2⟩], [⟨3⟩]]⟩⟩,
        ⟨⟨amrex.IndexType.TheCellType, ["slot1.c0"]⟩, ⟨11⟩, ⟨[[⟨4⟩]]⟩⟩,
        ⟨⟨amrex.IndexType.TheCellType, ["slot1.c0"]⟩, ⟨11⟩, ⟨[[⟨4⟩]]⟩⟩] ∧
    ∃ st, restart_state 2 scenarioThree = some st ∧
      st.length = scenarioThree.state.length ∧
      st.get? 2 = st.get? (2 - 1) ∧
      st.get? (2 - 1) = scenarioThree.state.get? (2 - 1) :=
  ⟨⟨by decide, by decide, by decide⟩, by decide,
    restart_copies_predecessor 2 scenarioThree 2 (by decide) (by decide) (by decide)⟩

/-- The statement of C7 for three state types, the work-estimate slot being slot 2, on
flags that all held 0 before the call. -/
theorem set_state_in_checkpoint_flags_witness :
    (3 : Nat) = [(0 : Int), 0, 0].length ∧
    set_state_in_checkpoint 2 3 [0, 0, 0] = [1, 1, 0] ∧
    ((set_state_in_checkpoint 2 3 [0, 0, 0]).length = [(0 : Int), 0, 0].length ∧
    ∀ i, i < [(0 : Int), 0, 0].length →
      ((set_state_in_checkpoint 2 3 [0, 0, 0]).get? i = some 0 ↔ i = 2) ∧
      ((set_state_in_checkpoint 2 3 [0, 0, 0]).get? i = some 1 ↔ i ≠ 2)) :=
  ⟨by decide, by decide, set_state_in_checkpoint_flags 2 3 [0, 0, 0] (by decide)⟩

/-! ## `restart`: the checkpoint version -/

theorem restart_version_resolved (dbg io : Bool) (c : Option String) (g : Globals)
    (hv : g.input_version ≠ -1) :
    restart_version dbg io c g
      = if dbg && !(g.input_version ≥ 0) then
          Except.error "Assertion input_version >= 0 failed"
        else Except.ok g := by
  have hb : (g.input_version == -1) = false := beq_eq_false_iff_ne.mpr hv
  simp only [restart_version, hb, Bool.false_eq_true, if_false]

theorem restart_version_ok (dbg io : Bool) (c : Option String) (g0 g1 : Globals)
    (h : restart_version dbg io c g0 = Except.ok g1) :
    (dbg && !(g1.input_version ≥ 0)) = false := by
  have key : ∀ g : Globals,
      (if dbg && !(g.input_version ≥ 0) then
          (Except.error "Assertion input_version >= 0 failed" : Except String Globals)
        else Except.ok g) = Except.ok g1 →
      (dbg && !(g1.input_version ≥ 0)) = false := by
    intro g hg
    by_cases hc : (dbg && !(g.input_version ≥ 0)) = true
    · rw [if_pos hc] at hg
      cases hg
    · rw [if_neg hc] at hg
      injection hg with hg
      subst hg
      simpa using hc
  exact key _ h

/-- C8 as stated fails. The file holds `Checkpoint version: -1` at the first call and
`Checkpoint version: 1` at the second. Without assertions the first call yields the version
`-1` (one file opened), and the second call opens the file again and yields `1`; with
assertions compiled in, the first call aborts on `input_version >= 0` and yields no
version. -/
theorem restart_version_counterexample :
    restart_version false true (some "Checkpoint version: -1\n") Globals.init
      = Except.ok ⟨-1, 1⟩ ∧
    restart_version false true (some "Checkpoint version: 1\n") ⟨-1, 1⟩
      = Except.ok ⟨1, 2⟩ ∧
    restart_version true true (some "Checkpoint version: -1\n") Globals.init
      = Except.error "Assertion input_version >= 0 failed" :=
  ⟨rfl, rfl, rfl⟩

/-- C8, amended: for every pair of contents of the `ERFHeader` file (present with any text,
or absent), if the version-resolution step of `restart` returns with a version other than
`-1` (the value that stands for 'not yet resolved'), then running it again in the same
process, with any other file contents, yields the same version, and the second call does
not open the file. -/
theorem restart_version_cached (AMREX_DEBUG IOProcessor : Bool) (c1 c2 : Option String)
    (g0 g1 : Globals)
    (h1 : restart_version AMREX_DEBUG IOProcessor c1 g0 = Except.ok g1)
    (hv : g1.input_version ≠ -1) :
    restart_version AMREX_DEBUG IOProcessor c2 g1 = Except.ok g1 := by
  rw [restart_version_resolved _ _ _ _ hv, restart_version_ok _ _ _ _ _ h1]
  rfl

/-- The amended C8 on a checkpoint of version 1 whose version file is replaced by one of
version 7 between the two calls: both calls yield version 1 and the file is opened once. -/
theorem restart_version_cached_witness :
    restart_version true true (some "Checkpoint version: 1\n") Globals.init
      = Except.ok ⟨1, 1⟩ ∧
    (⟨1, 1⟩ : Globals).input_version ≠ -1 ∧
    restart_version true true (some "Checkpoint version: 7\n") ⟨1, 1⟩ = Except.ok ⟨1, 1⟩ :=
  ⟨rfl, by decide,
    restart_version_cached true true (some "Checkpoint version: 1\n")
      (some "Checkpoint version: 7\n") Globals.init ⟨1, 1⟩ rfl (by decide)⟩

/-- C9: when the version has not been resolved yet (`input_version` is `-1`) and the
`ERFHeader` file cannot be opened, the version-resolution step of `restart` does not fail
and yields version 0, on every worker and with or without assertions. -/
theorem restart_version_default (AMREX_DEBUG IOProcessor : Bool) (g : Globals)
    (h : g.input_version = -1) :
    restart_version AMREX_DEBUG IOProcessor none g
      = Except.ok ⟨0, if IOProcessor then g.opens + 1 else g.opens⟩ := by
  cases AMREX_DEBUG <;> simp [restart_version, h, readERFHeader]

/-- The statement of C9 at program start, on the I/O processor with assertions compiled
in. -/
theorem restart_version_default_witness :
    Globals.init.input_version = -1 ∧
    restart_version true true none Globals.init = Except.ok ⟨0, 1⟩ :=
  ⟨rfl, restart_version_default true true Globals.init rfl⟩

/-! ## The text of the small plot file against the full one -/

theorem osText_append (a b : List Event) : osText (a ++ b) = osText a ++ osText b := by
  simp [osText, List.filterMap_append]

theorem osText_osWrite (ts : List Tok) : osText (osWrite ts) = ts := by
  induction ts with
  | nil => rfl
  | cons t ts ih =>
    simp only [osWrite, List.map_cons, osText, List.filterMap_cons] at ih ⊢
    rw [ih]

theorem osText_cons_os (t : Tok) (evs : List Event) :
    osText (Event.os t :: evs) = t :: osText evs := by
  simp [osText, List.filterMap_cons]

theorem derive_selection_nil (erf : ERFState) (h : selectedDerived erf = []) :
    derive_selection erf.isDerivePlotVar erf.derive_lst.dlist = ([], 0) := by
  have h1 := derive_selection_names erf
  have h2 := derive_selection_num erf
  rw [h] at h1 h2
  exact Prod.ext h1 h2

theorem cullDerived_nil (erf : ERFState) (t : amrex.Real) (mf : amrex.MultiFab) (cnt : Nat) :
    cullDerived erf [] t mf cnt = some (mf, cnt) := rfl

/-- C11 as stated fails. In the concrete run the two predicates accept the same names, yet
the full plot file counts 5 variables and lists the derived variable `Speed`, while the
small one counts 4 and lists no derived variable: the small text is not the full text plus
one line. On a worker that is not the I/O processor, and in a call that aborts on a failed
directory creation, the small variant writes no tolerance line at all. -/
theorem smallPlotFile_text_counterexample :
    (∀ nm, scenario.isStatePlotVar nm = scenario.isStateSmallPlotVar nm) ∧
    (osText (writePlotFile true true 0 scenario "plt00000" 0).events).take 4
      = [Tok.str "HyperCLaw-V1.1", Tok.chr '\n', Tok.int 5, Tok.chr '\n'] ∧
    (osText (writeSmallPlotFile true true 0 scenario "plt00000" 0).events).take 4
      = [Tok.str "HyperCLaw-V1.1", Tok.chr '\n', Tok.int 4, Tok.chr '\n'] ∧
    Tok.str "Speed" ∈ osText (writePlotFile true true 0 scenario "plt00000" 0).events ∧
    Tok.str "Speed" ∉ osText (writeSmallPlotFile true true 0 scenario "plt00000" 0).events ∧
    osText (writeSmallPlotFile true true 0 scenario "plt00000" 0).events
      ≠ osText (writePlotFile true true 0 scenario "plt00000" 0).events ++
          [Tok.real vfraceps, Tok.chr '\n'] ∧
    osText (writeSmallPlotFile false true 0
      { scenario with isDerivePlotVar := fun _ => false } "plt00000" 0).events = [] ∧
    Tok.real vfraceps ∉ osText (writeSmallPlotFile true false 0
      { scenario with isDerivePlotVar := fun _ => false } "plt00000" 0).events := by
  refine ⟨fun _ => rfl, ?_, ?_, ?_, ?_, ?_, ?_, ?_⟩ <;> decide

/-- C11, amended: on the I/O processor, when the full-export and small-export predicates
accept the same state-variable names, the full export selects no derived variable, and the
call runs to completion (a non-empty selection at level 0, the level directory created),
the text `writeSmallPlotFile` writes to the header stream is the text `writePlotFile` writes
to it followed by exactly one extra line holding `vfraceps`; that line comes last, after the
records of the level. -/
theorem smallPlotFile_text (mkdirOk : Bool) (State_Type : Nat) (erf : ERFState)
    (dir : String) (how : Nat)
    (hpred : ∀ nm, erf.isStatePlotVar nm = erf.isStateSmallPlotVar nm)
    (hder : selectedDerived erf = [])
    (hok : (writeSmallPlotFile true mkdirOk State_Type erf dir how).aborted = false) :
    (writePlotFile true mkdirOk State_Type erf dir how).aborted = false ∧
    osText (writeSmallPlotFile true mkdirOk State_Type erf dir how).events
      = osText (writePlotFile true mkdirOk State_Type erf dir how).events ++
          [Tok.real vfraceps, Tok.chr '\n'] ∧
    ∃ pre, osText (writePlotFile true mkdirOk State_Type erf dir how).events
      = pre ++ osText (writeLevelRecords erf (erf.state.getD State_Type default).curTime
          (plot_var_map erf.isStateSmallPlotVar erf.desc_lst).length) := by
  have hf : erf.isStatePlotVar = erf.isStateSmallPlotVar := funext hpred
  have hd := derive_selection_nil erf hder
  unfold writeSmallPlotFile at hok
  unfold writePlotFile writeSmallPlotFile
  simp only [hd, hf, Nat.add_zero] at hok ⊢
  cases mkdirOk
  · by_cases hl : erf.level = 0 <;>
      by_cases hn : (plot_var_map erf.isStateSmallPlotVar erf.desc_lst).length = 0 <;>
      simp [hl, hn, writeSmallPlotFile_header, writeSmallPlotFile_level, makeLevelDirectory,
        Run.seqAll, Run.emit, Run.abort] at hok
  · by_cases hl : erf.level = 0 <;>
      by_cases hn : (plot_var_map erf.isStateSmallPlotVar erf.desc_lst).length = 0
    · simp [hl, hn, writeSmallPlotFile_header, Run.seqAll, Run.emit, Run.abort] at hok
    · refine ⟨?_, ?_, ?_⟩
      · simp [hl, hn, writePlotFile_header, writePlotFile_level, writeDeriveNames,
          makeLevelDirectory, cullDerived_nil, Run.seqAll, Run.emit, Run.abort]
      · simp [hl, hn, writePlotFile_header, writePlotFile_level, writeDeriveNames,
          writeSmallPlotFile_header, writeSmallPlotFile_level,
          makeLevelDirectory, cullDerived_nil, Run.seqAll, Run.emit, Run.abort,
          osText_append, osText_osWrite, osText_cons_os, osText, osWrite]
      · refine ⟨osText ((Event.cout "writePlotFile_00" ::
            (writePlotFile_header erf dir (plot_var_map erf.isStateSmallPlotVar erf.desc_lst)
              [] (plot_var_map erf.isStateSmallPlotVar erf.desc_lst).length).events) ++
            [Event.UtilCreateDirectory (FullPath dir erf.level), Event.Barrier]), ?_⟩
        simp [hl, hn, writePlotFile_header, writePlotFile_level, writeDeriveNames,
          makeLevelDirectory, cullDerived_nil, Run.seqAll, Run.emit, Run.abort,
          osText_append, osText_osWrite, osText_cons_os, osText, osWrite]
    · refine ⟨?_, ?_, ?_⟩
      · simp [hl, hn, writePlotFile_level,
          makeLevelDirectory, cullDerived_nil, Run.seqAll, Run.emit, Run.abort]
      · simp [hl, hn, writePlotFile_level, writeSmallPlotFile_level,
          makeLevelDirectory, cullDerived_nil, Run.seqAll, Run.emit, Run.abort,
          osText_append, osText_osWrite, osText_cons_os, osText, osWrite]
      · refine ⟨[], ?_⟩
        simp [hl, hn, writePlotFile_level,
          makeLevelDirectory, cullDerived_nil, Run.seqAll, Run.emit, Run.abort,
          osText_append, osText_osWrite, osText_cons_os, osText, osWrite]
    · refine ⟨?_, ?_, ?_⟩
      · simp [hl, hn, writePlotFile_level,
          makeLevelDirectory, cullDerived_nil, Run.seqAll, Run.emit, Run.abort]
      · simp [hl, hn, writePlotFile_level, writeSmallPlotFile_level,
          makeLevelDirectory, cullDerived_nil, Run.seqAll, Run.emit, Run.abort,
          osText_append, osText_osWrite, osText_cons_os, osText, osWrite]
      · refine ⟨[], ?_⟩
        simp [hl, hn, writePlotFile_level,
          makeLevelDirectory, cullDerived_nil, Run.seqAll, Run.emit, Run.abort,
          osText_append, osText_osWrite, osText_cons_os, osText, osWrite]

/-- The amended C11 on the concrete run with the four state variables and no derived
variable selected. -/
theorem smallPlotFile_text_witness :
    (∀ nm, scenarioNoDerived.isStatePlotVar nm = scenarioNoDerived.isStateSmallPlotVar nm) ∧
    selectedDerived scenarioNoDerived = [] ∧
    (writeSmallPlotFile true true 0 scenarioNoDerived "plt00000" 0).aborted = false ∧
    ((writePlotFile true true 0 scenarioNoDerived "plt00000" 0).aborted = false ∧
      osText (writeSmallPlotFile true true 0 scenarioNoDerived "plt00000" 0).events
        = osText (writePlotFile true true 0 scenarioNoDerived "plt00000" 0).events ++
            [Tok.real vfraceps, Tok.chr '\n'] ∧
      ∃ pre, osText (writePlotFile true true 0 scenarioNoDerived "plt00000" 0).events
        = pre ++ osText (writeLevelRecords scenarioNoDerived
            (scenarioNoDerived.state.getD 0 default).curTime
            (plot_var_map scenarioNoDerived.isStateSmallPlotVar
              scenarioNoDerived.desc_lst).length)) :=
  ⟨fun _ => rfl, rfl, by decide,
    smallPlotFile_text true 0 scenarioNoDerived "plt00000" 0 (fun _ => rfl) rfl (by decide)⟩

/-! ## The array packed by `writePlotFile` -/

theorem foldl_range_getD {α β : Type} (l : List α) (d : α) (f : β → α → β) (init : β) :
    (List.range l.length).foldl (fun acc i => f acc (l.getD i d)) init = l.foldl f init := by
  induction l generalizing init with
  | nil => rfl
  | cons x xs ih =>
    rw [List.length_cons, List.range_succ_eq_map, List.foldl_cons, List.foldl_map]
    simp only [List.getD_cons_zero, Nat.succ_eq_add_one, List.getD_cons_succ, List.foldl_cons]
    exact ih _

theorem Copy_succ (dst src : amrex.MultiFab) (s d n : Nat) :
    amrex.MultiFab.Copy dst src s d (n + 1)
      = ⟨(amrex.MultiFab.Copy dst src s d n).comps.set (d + n) (src.comps.getD (s + n) [])⟩ := by
  simp [amrex.MultiFab.Copy, List.range_succ, List.foldl_append]

theorem Copy_comps (a b : List (List amrex.Real)) (src : amrex.MultiFab) (s n : Nat)
    (hn : n ≤ b.length) :
    (amrex.MultiFab.Copy ⟨a ++ b⟩ src s a.length n).comps
      = a ++ (List.range n).map (fun k => src.comps.getD (s + k) []) ++ b.drop n := by
  induction n with
  | zero => simp [amrex.MultiFab.Copy]
  | succ n ih =>
    have hlt : n < b.length := by omega
    rw [Copy_succ, ih (by omega)]
    simp only
    rw [List.set_append_right _ _ (by simp)]
    have e : a.length + n
        - (a ++ List.map (fun k => src.comps.getD (s + k) []) (List.range n)).length = 0 := by
      simp
    rw [e, List.drop_eq_getElem_cons hlt, List.set_cons_zero, List.range_succ, List.map_append]
    simp

theorem Copy_eq (a b : List (List amrex.Real)) (src : amrex.MultiFab) (s n : Nat)
    (hn : n ≤ b.length) :
    amrex.MultiFab.Copy ⟨a ++ b⟩ src s a.length n
      = ⟨a ++ (List.range n).map (fun k => src.comps.getD (s + k) []) ++ b.drop n⟩ := by
  have h := Copy_comps a b src s n hn
  cases hC : amrex.MultiFab.Copy ⟨a ++ b⟩ src s a.length n with
  | mk c =>
    rw [hC] at h
    simpa using h

/-- The state loop, started at the end of the part `a` already filled, appends one component
per selected pair `p`: component `p.2` of the new data of slot `p.1`. -/
theorem cullState_eq (state : List amrex.StateData) (pvm : List (Nat × Nat))
    (a b : List (List amrex.Real)) (h : pvm.length ≤ b.length) :
    cullState state pvm ⟨a ++ b⟩ a.length
      = (⟨a ++ pvm.map (fun p => (state.getD p.1 default).newData.comps.getD p.2 []) ++
            b.drop pvm.length⟩, a.length + pvm.length) := by
  unfold cullState
  rw [foldl_range_getD pvm (0, 0)
    (fun (acc : amrex.MultiFab × Nat) p =>
      (amrex.MultiFab.Copy acc.1 (state.getD p.1 default).newData p.2 acc.2 1, acc.2 + 1))]
  induction pvm generalizing a b with
  | nil => simp
  | cons p ps ih =>
    have hb : 1 ≤ b.length := by simp at h; omega
    rw [List.foldl_cons]
    simp only
    rw [Copy_eq a b _ _ 1 hb]
    have hlen : (a ++ List.map (fun k => (state.getD p.1 default).newData.comps.getD (p.2 + k) [])
        (List.range 1)).length = a.length + 1 := by simp
    rw [← hlen, ih _ _ (by simp at h ⊢; omega)]
    simp [Nat.add_assoc, Nat.add_comm 1, List.range_succ]

theorem derive_names_guard (names : List String) :
    (if names.length > 0 then names else []) = names := by
  cases names <;> simp

theorem cullDerived_eq (erf : ERFState) (sel : List amrex.DeriveRec) (t : amrex.Real)
    (hget : ∀ r ∈ sel, erf.derive_lst.get r.name = some r)
    (a b : List (List amrex.Real))
    (h : (sel.map (fun r => r.numDerive)).sum ≤ b.length) :
    cullDerived erf (sel.map (fun r => r.name)) t ⟨a ++ b⟩ a.length
      = some (⟨a ++ sel.flatMap (fun r => (List.range r.numDerive).map
              (fun k => (erf.derive r.name t).comps.getD k [])) ++
            b.drop (sel.map (fun r => r.numDerive)).sum⟩,
          a.length + (sel.map (fun r => r.numDerive)).sum) := by
  unfold cullDerived
  induction sel generalizing a b with
  | nil => simp
  | cons r rs ih =>
    have hr : erf.derive_lst.get r.name = some r := hget r (List.mem_cons_self _ _)
    have hrs : ∀ q ∈ rs, erf.derive_lst.get q.name = some q :=
      fun q hq => hget q (List.mem_cons_of_mem _ hq)
    simp only [List.map_cons, List.sum_cons] at h ⊢
    rw [List.foldl_cons]
    simp only [hr]
    rw [Copy_eq a b _ _ r.numDerive (by omega)]
    have hlen : (a ++ List.map (fun k => (erf.derive r.name t).comps.getD (0 + k) [])
        (List.range r.numDerive)).length = a.length + r.numDerive := by simp
    rw [← hlen, ih hrs _ _ (by simp; omega)]
    simp [Nat.add_assoc, List.flatMap_cons]

theorem CopyWrites_eq (d n : Nat) :
    amrex.MultiFab.CopyWrites d n = (List.range n).map (fun k => d + k) := by
  unfold amrex.MultiFab.CopyWrites
  rw [foldl_append_flatMap]
  induction (List.range n) with
  | nil => rfl
  | cons x xs ih =>
    simp only [List.nil_append] at ih
    simp [List.flatMap_cons, ih]

theorem cullStateWrites_eq (pvm : List (Nat × Nat)) (w : List Nat) (c : Nat) :
    cullStateWrites pvm w c
      = (w ++ (List.range pvm.length).map (fun k => c + k), c + pvm.length) := by
  unfold cullStateWrites
  induction pvm.length with
  | zero => simp
  | succ n ih =>
    rw [List.range_succ, List.foldl_append, ih]
    simp [CopyWrites_eq, List.range_succ, Nat.add_assoc]

theorem cullDerivedWrites_eq (erf : ERFState) (sel : List amrex.DeriveRec)
    (hget : ∀ r ∈ sel, erf.derive_lst.get r.name = some r) (w : List Nat) (c : Nat) :
    cullDerivedWrites erf (sel.map (fun r => r.name)) w c
      = some (w ++ (List.range (sel.map (fun r => r.numDerive)).sum).map (fun k => c + k),
          c + (sel.map (fun r => r.numDerive)).sum) := by
  unfold cullDerivedWrites
  induction sel generalizing w c with
  | nil => simp
  | cons r rs ih =>
    have hr : erf.derive_lst.get r.name = some r := hget r (List.mem_cons_self _ _)
    have hrs : ∀ q ∈ rs, erf.derive_lst.get q.name = some q :=
      fun q hq => hget q (List.mem_cons_of_mem _ hq)
    simp only [List.map_cons, List.sum_cons]
    rw [List.foldl_cons]
    simp only [hr]
    rw [ih hrs, CopyWrites_eq, List.range_add]
    simp [Nat.add_assoc, List.map_append]

theorem flatMap_getElem? {α β : Type} (l : List α) (f : α → List β) (j : Nat) (r : α)
    (h : l.get? j = some r) (k : Nat) (hk : k < (f r).length) :
    (l.flatMap f)[((l.take j).map (fun x => (f x).length)).sum + k]? = (f r)[k]? := by
  induction l generalizing j with
  | nil => simp at h
  | cons x xs ih =>
    cases j with
    | zero =>
      simp only [List.get?_cons_zero, Option.some.injEq] at h
      subst h
      simp only [List.take_zero, List.map_nil, List.sum_nil, Nat.zero_add, List.flatMap_cons]
      exact List.getElem?_append_left hk
    | succ j =>
      simp only [List.get?_cons_succ] at h
      simp only [List.take_succ_cons, List.map_cons, List.sum_cons, List.flatMap_cons]
      rw [List.getElem?_append_right (by omega)]
      have e : (f x).length + (List.map (fun x => (f x).length) (List.take j xs)).sum + k
          - (f x).length = (List.map (fun x => (f x).length) (List.take j xs)).sum + k := by
        omega
      rw [e]
      exact ih j h

/-! ## Runs that complete -/

theorem Run.seqAll_completed (rs : List Run) (h : (Run.seqAll rs).aborted = false) :
    (∀ r ∈ rs, r.aborted = false) ∧
    (Run.seqAll rs).events = rs.flatMap (fun r => r.events) := by
  induction rs with
  | nil => simp [Run.seqAll]
  | cons r rs ih =>
    by_cases hr : r.aborted = true
    · simp [Run.seqAll, hr] at h
    · simp only [Run.seqAll, hr, Bool.false_eq_true, if_false] at h ⊢
      obtain ⟨h1, h2⟩ := ih h
      refine ⟨?_, ?_⟩
      · intro q hq
        rcases List.mem_cons.mp hq with rfl | hq
        · simpa using hr
        · exact h1 q hq
      · simp [h2]

theorem makeLevelDirectory_completed (IOProcessor mkdirOk : Bool) (path : String)
    (h : (makeLevelDirectory IOProcessor mkdirOk path).aborted = false) :
    (makeLevelDirectory IOProcessor mkdirOk path).events
      = if IOProcessor then [Event.UtilCreateDirectory path] else [] := by
  revert h
  cases IOProcessor <;> cases mkdirOk <;>
    simp [makeLevelDirectory, Run.seqAll, Run.emit, Run.abort]

theorem writePlotFile_level_completed (IOProcessor mkdirOk : Bool) (erf : ERFState)
    (dir : String) (how : Nat) (pvm : List (Nat × Nat)) (names : List String) (n : Nat)
    (t : amrex.Real)
    (h : (writePlotFile_level IOProcessor mkdirOk erf dir how pvm names n t).aborted = false) :
    ∃ mf c,
      cullDerived erf (if names.length > 0 then names else []) t
        (cullState erf.state pvm (newPlotMF n) 0).1
        (cullState erf.state pvm (newPlotMF n) 0).2 = some (mf, c) ∧
      (writePlotFile_level IOProcessor mkdirOk erf dir how pvm names n t).events
        = (if IOProcessor then [Event.UtilCreateDirectory (FullPath dir erf.level)] else []) ++
          Event.Barrier ::
          ((if IOProcessor then writeLevelRecords erf t n else []) ++
          [Event.VisMFWrite mf (FullPath dir erf.level ++ "/Cell") how]) := by
  unfold writePlotFile_level at h ⊢
  obtain ⟨hall, hev⟩ := Run.seqAll_completed _ h
  rw [hev]
  have hmk := makeLevelDirectory_completed _ _ _ (hall _ (List.mem_cons_self _ _))
  have hM := hall _ (List.mem_cons_of_mem _ (List.mem_cons_of_mem _
    (List.mem_cons_of_mem _ (List.mem_singleton_self _))))
  cases hc : cullDerived erf (if names.length > 0 then names else []) t
      (cullState erf.state pvm (newPlotMF n) 0).1
      (cullState erf.state pvm (newPlotMF n) 0).2 with
  | none =>
    rw [hc] at hM
    simp [Run.abort] at hM
  | some p =>
    obtain ⟨mf, c⟩ := p
    refine ⟨mf, c, rfl, ?_⟩
    simp only [List.flatMap_cons, List.flatMap_nil, hmk, List.append_nil]
    cases IOProcessor <;> simp [Run.emit]

/-- A run of `writePlotFile` that completes consists of: the trace line; at level 0 on the
I/O processor the header block; the creation of the level directory (I/O processor only);
the barrier; the records of the level (I/O processor only); the bulk write of the packed
array. -/
theorem writePlotFile_completed (IOProcessor mkdirOk : Bool) (State_Type : Nat)
    (erf : ERFState) (dir : String) (how : Nat)
    (h : (writePlotFile IOProcessor mkdirOk State_Type erf dir how).aborted = false) :
    ∃ mf c, packPlotMF State_Type erf = some (mf, c) ∧
      (writePlotFile IOProcessor mkdirOk State_Type erf dir how).events
        = Event.cout "writePlotFile_00" ::
          ((if erf.level == 0 && IOProcessor then
              (writePlotFile_header erf dir (plot_var_map erf.isStatePlotVar erf.desc_lst)
                (derive_selection erf.isDerivePlotVar erf.derive_lst.dlist).1
                ((plot_var_map erf.isStatePlotVar erf.desc_lst).length +
                  (derive_selection erf.isDerivePlotVar erf.derive_lst.dlist).2)).events
            else []) ++
          ((if IOProcessor then [Event.UtilCreateDirectory (FullPath dir erf.level)] else []) ++
          Event.Barrier ::
          ((if IOProcessor then
              writeLevelRecords erf (erf.state.getD State_Type default).curTime
                ((plot_var_map erf.isStatePlotVar erf.desc_lst).length +
                  (derive_selection erf.isDerivePlotVar erf.derive_lst.dlist).2)
            else []) ++
          [Event.VisMFWrite mf (FullPath dir erf.level ++ "/Cell") how]))) := by
  unfold writePlotFile at h ⊢
  obtain ⟨hall, hev⟩ := Run.seqAll_completed _ h
  rw [hev]
  have hlev := hall _ (List.mem_cons_of_mem _ (List.mem_cons_of_mem _ (List.mem_singleton_self _)))
  obtain ⟨mf, c, hmf, hlevev⟩ := writePlotFile_level_completed _ _ _ _ _ _ _ _ _ hlev
  refine ⟨mf, c, hmf, ?_⟩
  simp only [List.flatMap_cons, List.flatMap_nil, List.append_nil, hlevev]
  cases hcnd : (erf.level == 0 && IOProcessor) <;> simp [Run.emit]

/-! ## The packed array -/

theorem packPlotMF_eq (State_Type : Nat) (erf : ERFState) (hget : LookupConsistent erf) :
    packPlotMF State_Type erf
      = some (⟨(plot_var_map erf.isStatePlotVar erf.desc_lst).map
              (fun p => (erf.state.getD p.1 default).newData.comps.getD p.2 []) ++
            (selectedDerived erf).flatMap (fun r => (List.range r.numDerive).map
              (fun k => (erf.derive r.name
                (erf.state.getD State_Type default).curTime).comps.getD k []))⟩,
          n_data_items erf) := by
  unfold packPlotMF
  simp only
  rw [derive_names_guard, derive_selection_names, derive_selection_num]
  have h1 := cullState_eq erf.state (plot_var_map erf.isStatePlotVar erf.desc_lst) []
    (List.replicate ((plot_var_map erf.isStatePlotVar erf.desc_lst).length +
      ((selectedDerived erf).map (fun r => r.numDerive)).sum) []) (by simp)
  simp only [List.nil_append, List.length_nil, List.drop_replicate, Nat.add_sub_cancel_left,
    Nat.zero_add] at h1
  have h0 : newPlotMF ((plot_var_map erf.isStatePlotVar erf.desc_lst).length +
      ((selectedDerived erf).map (fun r => r.numDerive)).sum)
      = ⟨List.replicate ((plot_var_map erf.isStatePlotVar erf.desc_lst).length +
      ((selectedDerived erf).map (fun r => r.numDerive)).sum) []⟩ := rfl
  rw [h0, h1]
  simp only
  have h2 := cullDerived_eq erf (selectedDerived erf)
    (erf.state.getD State_Type default).curTime hget
    ((plot_var_map erf.isStatePlotVar erf.desc_lst).map
      (fun p => (erf.state.getD p.1 default).newData.comps.getD p.2 []))
    (List.replicate ((selectedDerived erf).map (fun r => r.numDerive)).sum []) (by simp)
  simp only [List.length_map, List.drop_replicate, Nat.sub_self, List.replicate_zero,
    List.append_nil] at h2
  rw [h2, n_data_items, derive_selection_num]

theorem plotMFWrites_eq (erf : ERFState) (hget : LookupConsistent erf) :
    plotMFWrites erf = some (List.range (n_data_items erf)) := by
  unfold plotMFWrites
  simp only
  rw [derive_names_guard, derive_selection_names, cullStateWrites_eq,
    cullDerivedWrites_eq erf _ hget, n_data_items, derive_selection_num, List.range_add]
  simp

/-- C12 as stated fails on a registry that holds two records under one name. `plotMF` is
allocated with `n_data_items = 7` components, but each of the two selected names `Dv` is
copied with the arity of the record the lookup returns, the first one: components 0 to 5
are assigned, component 6 is never written, and the final write position is 6. -/
theorem plotMF_packed_counterexample :
    n_data_items scenarioDup = 7 ∧
    packPlotMF 0 scenarioDup
      = some (⟨[[⟨1⟩], [⟨2⟩], [⟨3⟩], [⟨4⟩], [⟨5⟩], [⟨5⟩], []]⟩, 6) ∧
    plotMFWrites scenarioDup = some [0, 1, 2, 3, 4, 5] ∧
    (writePlotFile true true 0 scenarioDup "plt00000" 0).events.getLast?
      = some (Event.VisMFWrite ⟨[[⟨1⟩], [⟨2⟩], [⟨3⟩], [⟨4⟩], [⟨5⟩], [⟨5⟩], []]⟩
          "plt00000/Level_0/Cell" 0) := by
  decide

/-- C12, amended: over a registry whose lookup by name returns, for the name of each selected
record, that record, the array `plotMF` packed by
`writePlotFile` has `n_data_items` components and the copies assign every one of them exactly
once (components `0, 1, ..., n_data_items - 1`, each once, in this order); component `i`, for
`i` below the number of selected raw pairs, is a copy of component `comp_i` of the new data
of slot `typ_i`; the `j`-th selected derived variable, of arity `a_j`, fills the `a_j`
consecutive components starting at the number of raw pairs plus the sum of the arities of
the derived variables before it; the final write position is `n_data_items`; and this array
is the one a completed call hands to the bulk write. -/
theorem plotMF_packed (State_Type : Nat) (erf : ERFState) (hget : LookupConsistent erf) :
    ∃ plotMF : amrex.MultiFab,
      packPlotMF State_Type erf = some (plotMF, n_data_items erf) ∧
      plotMF.comps.length = n_data_items erf ∧
      plotMFWrites erf = some (List.range (n_data_items erf)) ∧
      (∀ i p, (plot_var_map erf.isStatePlotVar erf.desc_lst).get? i = some p →
        plotMF.comps.get? i
          = some ((erf.state.getD p.1 default).newData.comps.getD p.2 [])) ∧
      (∀ j r, (selectedDerived erf).get? j = some r → ∀ k, k < r.numDerive →
        plotMF.comps.get? ((plot_var_map erf.isStatePlotVar erf.desc_lst).length +
            (((selectedDerived erf).take j).map (fun q => q.numDerive)).sum + k)
          = some ((erf.derive r.name (erf.state.getD State_Type default).curTime).comps.getD
              k [])) ∧
      (∀ (IOProcessor mkdirOk : Bool) (dir : String) (how : Nat),
        (writePlotFile IOProcessor mkdirOk State_Type erf dir how).aborted = false →
        (writePlotFile IOProcessor mkdirOk State_Type erf dir how).events.getLast?
          = some (Event.VisMFWrite plotMF (FullPath dir erf.level ++ "/Cell") how)) := by
  refine ⟨_, packPlotMF_eq State_Type erf hget, ?_, plotMFWrites_eq erf hget, ?_, ?_, ?_⟩
  · simp only [List.length_append, List.length_map, List.length_flatMap, List.length_range,
      n_data_items, derive_selection_num]
    simp [Function.comp_def]
  · intro i p hp
    rw [List.get?_eq_getElem?] at hp ⊢
    have hi : i < (plot_var_map erf.isStatePlotVar erf.desc_lst).length :=
      (List.getElem?_eq_some_iff.mp hp).1
    simp only
    rw [List.getElem?_append_left (by simpa using hi), List.getElem?_map, hp]
    rfl
  · intro j r hr k hk
    rw [List.get?_eq_getElem?]
    simp only
    rw [Nat.add_assoc, List.getElem?_append_right (by simp)]
    have e : (plot_var_map erf.isStatePlotVar erf.desc_lst).length +
        ((((selectedDerived erf).take j).map (fun q => q.numDerive)).sum + k) -
        ((plot_var_map erf.isStatePlotVar erf.desc_lst).map
          (fun p => (erf.state.getD p.1 default).newData.comps.getD p.2 [])).length
        = (((selectedDerived erf).take j).map (fun q => q.numDerive)).sum + k := by
      simp
    rw [e]
    have h := flatMap_getElem? (selectedDerived erf)
      (fun r => (List.range r.numDerive).map
        (fun k => (erf.derive r.name (erf.state.getD State_Type default).curTime).comps.getD
          k [])) j r hr k (by simpa using hk)
    simp only [List.length_map, List.length_range] at h
    rw [h, List.getElem?_map, List.getElem?_range hk]
    rfl
  · intro io ok dir how hok
    obtain ⟨mf, c, hmf, hev⟩ := writePlotFile_completed io ok State_Type erf dir how hok
    rw [packPlotMF_eq State_Type erf hget] at hmf
    injection hmf with hmf
    injection hmf with hmf1 hmf2
    rw [hev, ← hmf1]
    have e : ∀ (a b c : List Event) (x y v : Event),
        (x :: (a ++ (b ++ y :: (c ++ [v])))).getLast? = some v := by
      intro a b c x y v
      have e2 : x :: (a ++ (b ++ y :: (c ++ [v]))) = (x :: (a ++ (b ++ y :: c))) ++ [v] := by
        simp
      rw [e2, List.getLast?_concat]
    exact e _ _ _ _ _ _

/-- The statement of C12 on the concrete run: five components, the three components of slot 0,
the component of slot 1, then `Speed`, assigned in the order 0, 1, 2, 3, 4. -/
theorem plotMF_packed_witness :
    packPlotMF 0 scenario
      = some (⟨[[⟨1⟩], [⟨2⟩], [⟨3⟩], [⟨4⟩], [⟨5⟩]]⟩, 5) ∧
    plotMFWrites scenario = some [0, 1, 2, 3, 4] ∧
    ∃ plotMF : amrex.MultiFab,
      packPlotMF 0 scenario = some (plotMF, n_data_items scenario) ∧
      plotMF.comps.length = n_data_items scenario ∧
      plotMFWrites scenario = some (List.range (n_data_items scenario)) ∧
      (∀ i p, (plot_var_map scenario.isStatePlotVar scenario.desc_lst).get? i = some p →
        plotMF.comps.get? i
          = some ((scenario.state.getD p.1 default).newData.comps.getD p.2 [])) ∧
      (∀ j r, (selectedDerived scenario).get? j = some r → ∀ k, k < r.numDerive →
        plotMF.comps.get? ((plot_var_map scenario.isStatePlotVar scenario.desc_lst).length +
            (((selectedDerived scenario).take j).map (fun q => q.numDerive)).sum + k)
          = some ((scenario.derive r.name (scenario.state.getD 0 default).curTime).comps.getD
              k [])) ∧
      (∀ (IOProcessor mkdirOk : Bool) (dir : String) (how : Nat),
        (writePlotFile IOProcessor mkdirOk 0 scenario dir how).aborted = false →
        (writePlotFile IOProcessor mkdirOk 0 scenario dir how).events.getLast?
          = some (Event.VisMFWrite plotMF (FullPath dir scenario.level ++ "/Cell") how)) :=
  ⟨by decide, by decide, plotMF_packed 0 scenario scenario_lookup⟩

/-! ## The order of the effects -/

theorem mem_writeStateNames (e : Event) (desc_lst : List amrex.StateDescriptor)
    (pvm : List (Nat × Nat)) (h : e ∈ writeStateNames desc_lst pvm) : ∃ t, e = Event.os t := by
  rw [writeStateNames_eq] at h
  exact mem_osWrite _ _ h

theorem mem_writeGeometry (e : Event) (erf : ERFState) (h : e ∈ writeGeometry erf) :
    ∃ t, e = Event.os t := by
  rw [writeGeometry_eq] at h
  exact mem_osWrite _ _ h

theorem mem_writeDeriveNames_completed (e : Event) (dl : amrex.DeriveList)
    (names : List String) (hok : (writeDeriveNames dl names).aborted = false)
    (h : e ∈ (writeDeriveNames dl names).events) : ∃ t, e = Event.os t := by
  unfold writeDeriveNames at hok h
  obtain ⟨hall, hev⟩ := Run.seqAll_completed _ hok
  rw [hev] at h
  simp only [List.mem_flatMap, List.mem_map] at h
  obtain ⟨r, ⟨nm, hnm, rfl⟩, hmem⟩ := h
  have hr := hall _ (List.mem_map_of_mem _ hnm)
  cases hg : dl.get nm with
  | none => simp [hg, Run.abort] at hr
  | some rec =>
    simp only [hg, Run.emit, mem_forLoop] at hmem
    obtain ⟨i, _, hi⟩ := hmem
    exact mem_osWrite _ _ hi

theorem mem_writePlotFile_header_completed (e : Event) (erf : ERFState) (dir : String)
    (pvm : List (Nat × Nat)) (names : List String) (n : Nat)
    (hok : (writePlotFile_header erf dir pvm names n).aborted = false)
    (h : e ∈ (writePlotFile_header erf dir pvm names n).events) :
    (∃ t, e = Event.os t) ∨ e = Event.writeJobInfo dir := by
  unfold writePlotFile_header at hok h
  obtain ⟨hall, hev⟩ := Run.seqAll_completed _ hok
  rw [hev] at h
  have hD := hall (writeDeriveNames erf.derive_lst names) (by simp)
  have hE := hall (if n == 0 then Run.abort (Event.Error noDataItemsMsg) else Run.emit [])
    (by simp)
  simp only [List.flatMap_cons, List.flatMap_nil, List.append_nil, List.mem_append,
    Run.emit] at h
  rcases h with h | h | h | h | h | h | h
  · exact Or.inl (mem_osWrite _ _ h)
  · split at h
    · rename_i hn
      simp [hn, Run.abort] at hE
    · simp at h
  · exact Or.inl (mem_osWrite _ _ h)
  · exact Or.inl (mem_writeStateNames _ _ _ h)
  · exact Or.inl (mem_writeDeriveNames_completed _ _ _ hD h)
  · exact Or.inl (mem_writeGeometry _ _ h)
  · exact Or.inr (by simpa using h)

theorem mem_writeSmallPlotFile_header_completed (e : Event) (erf : ERFState) (dir : String)
    (pvm : List (Nat × Nat)) (n : Nat)
    (hok : (writeSmallPlotFile_header erf dir pvm n).aborted = false)
    (h : e ∈ (writeSmallPlotFile_header erf dir pvm n).events) :
    (∃ t, e = Event.os t) ∨ e = Event.writeJobInfo dir := by
  unfold writeSmallPlotFile_header at hok h
  obtain ⟨hall, hev⟩ := Run.seqAll_completed _ hok
  rw [hev] at h
  have hE := hall (if n == 0 then Run.abort (Event.Error noDataItemsMsg) else Run.emit [])
    (by simp)
  simp only [List.flatMap_cons, List.flatMap_nil, List.append_nil, List.mem_append,
    Run.emit] at h
  rcases h with h | h | h | h | h | h
  · exact Or.inl (mem_osWrite _ _ h)
  · split at h
    · rename_i hn
      simp [hn, Run.abort] at hE
    · simp at h
  · exact Or.inl (mem_osWrite _ _ h)
  · exact Or.inl (mem_writeStateNames _ _ _ h)
  · exact Or.inl (mem_writeGeometry _ _ h)
  · exact Or.inr (by simpa using h)

theorem writeSmallPlotFile_completed (IOProcessor mkdirOk : Bool) (State_Type : Nat)
    (erf : ERFState) (dir : String) (how : Nat)
    (h : (writeSmallPlotFile IOProcessor mkdirOk State_Type erf dir how).aborted = false) :
    (writeSmallPlotFile IOProcessor mkdirOk State_Type erf dir how).events
      = (if erf.level == 0 && IOProcessor then
            (writeSmallPlotFile_header erf dir
              (plot_var_map erf.isStateSmallPlotVar erf.desc_lst)
              (plot_var_map erf.isStateSmallPlotVar erf.desc_lst).length).events
          else []) ++
        ((if IOProcessor then [Event.UtilCreateDirectory (FullPath dir erf.level)] else []) ++
        Event.Barrier ::
        ((if IOProcessor then
            writeLevelRecords erf (erf.state.getD State_Type default).curTime
              (plot_var_map erf.isStateSmallPlotVar erf.desc_lst).length ++
            osWrite [Tok.real vfraceps, Tok.chr '\n']
          else []) ++
        [Event.VisMFWrite
          (cullState erf.state (plot_var_map erf.isStateSmallPlotVar erf.desc_lst)
            (newPlotMF (plot_var_map erf.isStateSmallPlotVar erf.desc_lst).length) 0).1
          (FullPath dir erf.level ++ "/Cell") how])) := by
  unfold writeSmallPlotFile at h ⊢
  obtain ⟨hall, hev⟩ := Run.seqAll_completed _ h
  rw [hev]
  have hlev := hall _ (List.mem_cons_of_mem _ (List.mem_singleton_self _))
  unfold writeSmallPlotFile_level at hlev ⊢
  obtain ⟨hall2, hev2⟩ := Run.seqAll_completed _ hlev
  have hmk := makeLevelDirectory_completed _ _ _ (hall2 _ (List.mem_cons_self _ _))
  simp only [List.flatMap_cons, List.flatMap_nil, List.append_nil, hev2, hmk]
  cases IOProcessor <;> cases hcnd : (erf.level == 0) <;> simp [Run.emit]

theorem Run.seqAll_prefix (rs : List Run) :
    (Run.seqAll rs).events <+: rs.flatMap (fun r => r.events) := by
  induction rs with
  | nil => simp [Run.seqAll]
  | cons r rs ih =>
    by_cases hr : r.aborted = true
    · simp only [Run.seqAll, hr, if_true, List.flatMap_cons]
      exact List.prefix_append _ _
    · simp only [Run.seqAll, hr, Bool.false_eq_true, if_false, List.flatMap_cons]
      exact (List.prefix_append_right_inj _).mpr ih

theorem barrier_before_bulk (l P R a b : List Event) (v : Event)
    (hl : l <+: P ++ Event.Barrier :: R) (hv : v ∉ P) (hvb : v ≠ Event.Barrier)
    (hab : l = a ++ v :: b) : Event.Barrier ∈ a := by
  obtain ⟨t, ht⟩ := hl
  rw [hab, List.append_assoc, List.cons_append] at ht
  rcases List.append_eq_append_iff.mp ht with ⟨c, hc1, hc2⟩ | ⟨c, hc1, hc2⟩
  · cases c with
    | nil =>
      simp only [List.nil_append, List.cons.injEq] at hc2
      exact absurd hc2.1 hvb
    | cons x c =>
      simp only [List.cons_append, List.cons.injEq] at hc2
      exact absurd (hc1 ▸ List.mem_append_right a (hc2.1 ▸ List.mem_cons_self _ _)) hv
  · cases c with
    | nil =>
      simp only [List.nil_append, List.cons.injEq] at hc2
      exact absurd hc2.1.symm hvb
    | cons x c =>
      simp only [List.cons_append, List.cons.injEq] at hc2
      rw [hc1, ← hc2.1]
      exact List.mem_append_right P (List.mem_cons_self _ _)

theorem mem_writeDeriveNames (e : Event) (dl : amrex.DeriveList) (names : List String)
    (h : e ∈ (writeDeriveNames dl names).events) :
    (∃ t, e = Event.os t) ∨ e = Event.nullDereference := by
  unfold writeDeriveNames at h
  obtain ⟨r, hr, hmem⟩ := Run.mem_seqAll _ _ h
  simp only [List.mem_map] at hr
  obtain ⟨nm, _, rfl⟩ := hr
  cases hg : dl.get nm with
  | none =>
    simp only [hg, Run.abort, List.mem_singleton] at hmem
    exact Or.inr hmem
  | some rec =>
    simp only [hg, Run.emit, mem_forLoop] at hmem
    obtain ⟨i, _, hi⟩ := hmem
    exact Or.inl (mem_osWrite _ _ hi)

theorem writePlotFile_header_no_bulk (erf : ERFState) (dir : String)
    (pvm : List (Nat × Nat)) (names : List String) (n : Nat) (mf : amrex.MultiFab)
    (p : String) (how : Nat) :
    Event.VisMFWrite mf p how ∉ (writePlotFile_header erf dir pvm names n).events := by
  intro h
  unfold writePlotFile_header at h
  obtain ⟨r, hr, hmem⟩ := Run.mem_seqAll _ _ h
  simp only [List.mem_cons, List.mem_singleton, List.not_mem_nil, or_false] at hr
  rcases hr with rfl | rfl | rfl | rfl | rfl | rfl | rfl
  · obtain ⟨t, ht⟩ := mem_osWrite _ _ hmem
    cases ht
  · split at hmem <;> simp [Run.abort, Run.emit] at hmem
  · obtain ⟨t, ht⟩ := mem_osWrite _ _ hmem
    cases ht
  · obtain ⟨t, ht⟩ := mem_writeStateNames _ _ _ hmem
    cases ht
  · rcases mem_writeDeriveNames _ _ _ hmem with ⟨t, ht⟩ | ht <;> cases ht
  · obtain ⟨t, ht⟩ := mem_writeGeometry _ _ hmem
    cases ht
  · simp [Run.emit] at hmem

theorem writeSmallPlotFile_header_no_bulk (erf : ERFState) (dir : String)
    (pvm : List (Nat × Nat)) (n : Nat) (mf : amrex.MultiFab) (p : String) (how : Nat) :
    Event.VisMFWrite mf p how ∉ (writeSmallPlotFile_header erf dir pvm n).events := by
  intro h
  unfold writeSmallPlotFile_header at h
  obtain ⟨r, hr, hmem⟩ := Run.mem_seqAll _ _ h
  simp only [List.mem_cons, List.mem_singleton, List.not_mem_nil, or_false] at hr
  rcases hr with rfl | rfl | rfl | rfl | rfl | rfl
  · obtain ⟨t, ht⟩ := mem_osWrite _ _ hmem
    cases ht
  · split at hmem <;> simp [Run.abort, Run.emit] at hmem
  · obtain ⟨t, ht⟩ := mem_osWrite _ _ hmem
    cases ht
  · obtain ⟨t, ht⟩ := mem_writeStateNames _ _ _ hmem
    cases ht
  · obtain ⟨t, ht⟩ := mem_writeGeometry _ _ hmem
    cases ht
  · simp [Run.emit] at hmem

theorem makeLevelDirectory_no_bulk (io ok : Bool) (path : String) (mf : amrex.MultiFab)
    (p : String) (how : Nat) :
    Event.VisMFWrite mf p how ∉ (makeLevelDirectory io ok path).events := by
  intro h
  rcases mem_makeLevelDirectory _ _ _ _ h with h1 | h1 <;> cases h1

/-- In every run of `writePlotFile`, completed or not and on any worker, a bulk write comes
after the barrier. -/
theorem writePlotFile_bulk_after_barrier (IOProcessor mkdirOk : Bool) (State_Type : Nat)
    (erf : ERFState) (dir : String) (how : Nat) (a b : List Event) (mf : amrex.MultiFab)
    (p : String) (hw : Nat)
    (hev : (writePlotFile IOProcessor mkdirOk State_Type erf dir how).events
      = a ++ Event.VisMFWrite mf p hw :: b) : Event.Barrier ∈ a := by
  unfold writePlotFile at hev
  simp only at hev
  have h1 := Run.seqAll_prefix [Run.emit [Event.cout "writePlotFile_00"],
    (if erf.level == 0 && IOProcessor then
      writePlotFile_header erf dir (plot_var_map erf.isStatePlotVar erf.desc_lst)
        (derive_selection erf.isDerivePlotVar erf.derive_lst.dlist).1
        ((plot_var_map erf.isStatePlotVar erf.desc_lst).length +
          (derive_selection erf.isDerivePlotVar erf.derive_lst.dlist).2)
     else Run.emit []),
    writePlotFile_level IOProcessor mkdirOk erf dir how
      (plot_var_map erf.isStatePlotVar erf.desc_lst)
      (derive_selection erf.isDerivePlotVar erf.derive_lst.dlist).1
      ((plot_var_map erf.isStatePlotVar erf.desc_lst).length +
        (derive_selection erf.isDerivePlotVar erf.derive_lst.dlist).2)
      (erf.state.getD State_Type default).curTime]
  have h2 := Run.seqAll_prefix [
    makeLevelDirectory IOProcessor mkdirOk (FullPath dir erf.level),
    Run.emit [Event.Barrier],
    (if IOProcessor then Run.emit (writeLevelRecords erf
        (erf.state.getD State_Type default).curTime
        ((plot_var_map erf.isStatePlotVar erf.desc_lst).length +
          (derive_selection erf.isDerivePlotVar erf.derive_lst.dlist).2))
     else Run.emit []),
    (match cullDerived erf
        (if (derive_selection erf.isDerivePlotVar erf.derive_lst.dlist).1.length > 0 then
          (derive_selection erf.isDerivePlotVar erf.derive_lst.dlist).1 else [])
        (erf.state.getD State_Type default).curTime
        (cullState erf.state (plot_var_map erf.isStatePlotVar erf.desc_lst)
          (newPlotMF ((plot_var_map erf.isStatePlotVar erf.desc_lst).length +
            (derive_selection erf.isDerivePlotVar erf.derive_lst.dlist).2)) 0).1
        (cullState erf.state (plot_var_map erf.isStatePlotVar erf.desc_lst)
          (newPlotMF ((plot_var_map erf.isStatePlotVar erf.desc_lst).length +
            (derive_selection erf.isDerivePlotVar erf.derive_lst.dlist).2)) 0).2 with
     | none => Run.abort Event.nullDereference
     | some (plotMF, _) =>
       Run.emit [Event.VisMFWrite plotMF (FullPath dir erf.level ++ "/Cell") how])]
  simp only [List.flatMap_cons, List.flatMap_nil, List.append_nil] at h1 h2
  have h3 := h1.trans ((List.prefix_append_right_inj _).mpr
    ((List.prefix_append_right_inj _).mpr h2))
  rw [← List.append_assoc, ← List.append_assoc] at h3
  refine barrier_before_bulk _ _ _ a b _ h3 ?_ (by simp) hev
  simp only [List.mem_append, not_or]
  refine ⟨⟨by simp [Run.emit], ?_⟩, makeLevelDirectory_no_bulk _ _ _ _ _ _⟩
  split
  · exact writePlotFile_header_no_bulk _ _ _ _ _ _ _ _
  · simp [Run.emit]

/-- In every run of `writeSmallPlotFile`, completed or not and on any worker, a bulk write
comes after the barrier. -/
theorem writeSmallPlotFile_bulk_after_barrier (IOProcessor mkdirOk : Bool)
    (State_Type : Nat) (erf : ERFState) (dir : String) (how : Nat) (a b : List Event)
    (mf : amrex.MultiFab) (p : String) (hw : Nat)
    (hev : (writeSmallPlotFile IOProcessor mkdirOk State_Type erf dir how).events
      = a ++ Event.VisMFWrite mf p hw :: b) : Event.Barrier ∈ a := by
  unfold writeSmallPlotFile at hev
  simp only at hev
  have h1 := Run.seqAll_prefix [
    (if erf.level == 0 && IOProcessor then
      writeSmallPlotFile_header erf dir (plot_var_map erf.isStateSmallPlotVar erf.desc_lst)
        (plot_var_map erf.isStateSmallPlotVar erf.desc_lst).length
     else Run.emit []),
    writeSmallPlotFile_level IOProcessor mkdirOk erf dir how
      (plot_var_map erf.isStateSmallPlotVar erf.desc_lst)
      (plot_var_map erf.isStateSmallPlotVar erf.desc_lst).length
      (erf.state.getD State_Type default).curTime]
  have h2 := Run.seqAll_prefix [
    makeLevelDirectory IOProcessor mkdirOk (FullPath dir erf.level),
    Run.emit [Event.Barrier],
    (if IOProcessor then
      Run.emit (writeLevelRecords erf (erf.state.getD State_Type default).curTime
          (plot_var_map erf.isStateSmallPlotVar erf.desc_lst).length ++
        osWrite [Tok.real vfraceps, Tok.chr '\n'])
     else Run.emit []),
    Run.emit [Event.VisMFWrite
      (cullState erf.state (plot_var_map erf.isStateSmallPlotVar erf.desc_lst)
        (newPlotMF (plot_var_map erf.isStateSmallPlotVar erf.desc_lst).length) 0).1
      (FullPath dir erf.level ++ "/Cell") how]]
  simp only [List.flatMap_cons, List.flatMap_nil, List.append_nil] at h1 h2
  have h3 := h1.trans ((List.prefix_append_right_inj _).mpr h2)
  rw [← List.append_assoc] at h3
  refine barrier_before_bulk _ _ _ a b _ h3 ?_ (by simp) hev
  simp only [List.mem_append, not_or]
  refine ⟨?_, makeLevelDirectory_no_bulk _ _ _ _ _ _⟩
  split
  · exact writeSmallPlotFile_header_no_bulk _ _ _ _ _ _ _
  · simp [Run.emit]

theorem writeLevelRecords_ne_nil (erf : ERFState) (t : amrex.Real) (n : Nat) :
    writeLevelRecords erf t n ≠ [] := by
  simp [writeLevelRecords, osWrite]

/-- C13 as stated fails. In the concrete run on the I/O processor the records of the level
(level, number of grids, time, step count, the boxes, the path name `Level_0/Cell`, and for
the small variant the tolerance) are inserted into the header stream after the barrier; the
bulk write follows them. -/
theorem barrier_order_counterexample :
    (writePlotFile true true 0 scenario "plt00000" 0).aborted = false ∧
    Event.os (Tok.str "Level_0/Cell") ∈
      afterBarrier (writePlotFile true true 0 scenario "plt00000" 0).events ∧
    (osText (afterBarrier (writePlotFile true true 0 scenario "plt00000" 0).events)).length
      = 22 ∧
    (writeSmallPlotFile true true 0 scenario "plt00000" 0).aborted = false ∧
    Event.os (Tok.real vfraceps) ∈
      afterBarrier (writeSmallPlotFile true true 0 scenario "plt00000" 0).events ∧
    (osText (afterBarrier
      (writeSmallPlotFile true true 0 scenario "plt00000" 0).events)).length = 24 := by
  decide

/-- C13, amended: in a call of `writePlotFile` or `writeSmallPlotFile` that completes on the
I/O processor the effects come in this order: the header block (at level 0 only: header
text, then the job information file), the creation of the level directory, the barrier, the
records of the level inserted into the header stream (for the small variant followed by the
tolerance line), the bulk write. So the directory is created before the barrier and the bulk
write is the last effect, after the barrier and after every insertion into the header
stream; the records of the level are textual metadata written after the barrier. In every
call, on any worker and completed or not, a bulk write is preceded by the barrier. -/
theorem barrier_order (mkdirOk : Bool) (State_Type : Nat) (erf : ERFState) (dir : String)
    (how : Nat) :
    ((writePlotFile true mkdirOk State_Type erf dir how).aborted = false →
      ∃ hdr mf, (writePlotFile true mkdirOk State_Type erf dir how).events
          = Event.cout "writePlotFile_00" ::
            (hdr ++ Event.UtilCreateDirectory (FullPath dir erf.level) :: Event.Barrier ::
              (writeLevelRecords erf (erf.state.getD State_Type default).curTime
                  (n_data_items erf) ++
                [Event.VisMFWrite mf (FullPath dir erf.level ++ "/Cell") how])) ∧
        ∀ e ∈ hdr, (∃ tok, e = Event.os tok) ∨ e = Event.writeJobInfo dir) ∧
    ((writeSmallPlotFile true mkdirOk State_Type erf dir how).aborted = false →
      ∃ hdr mf, (writeSmallPlotFile true mkdirOk State_Type erf dir how).events
          = hdr ++ Event.UtilCreateDirectory (FullPath dir erf.level) :: Event.Barrier ::
              (writeLevelRecords erf (erf.state.getD State_Type default).curTime
                  (plot_var_map erf.isStateSmallPlotVar erf.desc_lst).length ++
                osWrite [Tok.real vfraceps, Tok.chr '\n'] ++
                [Event.VisMFWrite mf (FullPath dir erf.level ++ "/Cell") how]) ∧
        ∀ e ∈ hdr, (∃ tok, e = Event.os tok) ∨ e = Event.writeJobInfo dir) ∧
    (∀ t n, writeLevelRecords erf t n ≠ [] ∧
      ∀ e ∈ writeLevelRecords erf t n, ∃ tok, e = Event.os tok) ∧
    (∀ (IOProcessor : Bool) (a b : List Event) (mf : amrex.MultiFab) (p : String) (hw : Nat),
      (writePlotFile IOProcessor mkdirOk State_Type erf dir how).events
        = a ++ Event.VisMFWrite mf p hw :: b → Event.Barrier ∈ a) ∧
    (∀ (IOProcessor : Bool) (a b : List Event) (mf : amrex.MultiFab) (p : String) (hw : Nat),
      (writeSmallPlotFile IOProcessor mkdirOk State_Type erf dir how).events
        = a ++ Event.VisMFWrite mf p hw :: b → Event.Barrier ∈ a) := by
  refine ⟨?_, ?_, ?_, ?_, ?_⟩
  · intro hok
    obtain ⟨mf, c, _, hev⟩ := writePlotFile_completed true mkdirOk State_Type erf dir how hok
    refine ⟨(if erf.level == 0 && true then
        (writePlotFile_header erf dir (plot_var_map erf.isStatePlotVar erf.desc_lst)
          (derive_selection erf.isDerivePlotVar erf.derive_lst.dlist).1
          ((plot_var_map erf.isStatePlotVar erf.desc_lst).length +
            (derive_selection erf.isDerivePlotVar erf.derive_lst.dlist).2)).events
      else []), mf, ?_, ?_⟩
    · rw [hev]
      simp only [if_true, List.cons_append, List.nil_append]
      rfl
    · intro e he
      cases hc : (erf.level == 0 && true)
      · simp [hc] at he
      · simp only [hc, if_true] at he
        refine mem_writePlotFile_header_completed e erf dir _ _ _ ?_ he
        unfold writePlotFile at hok
        have hall := (Run.seqAll_completed _ hok).1
        have hX := hall _ (List.mem_cons_of_mem _ (List.mem_cons_self _ _))
        simpa [hc] using hX
  · intro hok
    have hev := writeSmallPlotFile_completed true mkdirOk State_Type erf dir how hok
    refine ⟨(if erf.level == 0 && true then
        (writeSmallPlotFile_header erf dir
          (plot_var_map erf.isStateSmallPlotVar erf.desc_lst)
          (plot_var_map erf.isStateSmallPlotVar erf.desc_lst).length).events
      else []),
      (cullState erf.state (plot_var_map erf.isStateSmallPlotVar erf.desc_lst)
        (newPlotMF (plot_var_map erf.isStateSmallPlotVar erf.desc_lst).length) 0).1, ?_, ?_⟩
    · rw [hev]
      simp only [if_true, List.cons_append, List.nil_append, List.append_assoc]
    · intro e he
      cases hc : (erf.level == 0 && true)
      · simp [hc] at he
      · simp only [hc, if_true] at he
        refine mem_writeSmallPlotFile_header_completed e erf dir _ _ ?_ he
        unfold writeSmallPlotFile at hok
        have hall := (Run.seqAll_completed _ hok).1
        have hX := hall _ (List.mem_cons_self _ _)
        simpa [hc] using hX
  · intro t n
    exact ⟨writeLevelRecords_ne_nil erf t n, fun e he => mem_writeLevelRecords e erf t n he⟩
  · intro io a b mf p hw hev
    exact writePlotFile_bulk_after_barrier io mkdirOk State_Type erf dir how a b mf p hw hev
  · intro io a b mf p hw hev
    exact writeSmallPlotFile_bulk_after_barrier io mkdirOk State_Type erf dir how a b mf p hw
      hev

/-- The amended C13 on the concrete run: both calls complete on the I/O processor. -/
theorem barrier_order_witness :
    (writePlotFile true true 0 scenario "plt00000" 0).aborted = false ∧
    (writeSmallPlotFile true true 0 scenario "plt00000" 0).aborted = false ∧
    (∃ hdr mf, (writePlotFile true true 0 scenario "plt00000" 0).events
        = Event.cout "writePlotFile_00" ::
          (hdr ++ Event.UtilCreateDirectory (FullPath "plt00000" scenario.level) ::
            Event.Barrier ::
            (writeLevelRecords scenario (scenario.state.getD 0 default).curTime
                (n_data_items scenario) ++
              [Event.VisMFWrite mf (FullPath "plt00000" scenario.level ++ "/Cell") 0])) ∧
      ∀ e ∈ hdr, (∃ tok, e = Event.os tok) ∨ e = Event.writeJobInfo "plt00000") ∧
    (∃ hdr mf, (writeSmallPlotFile true true 0 scenario "plt00000" 0).events
        = hdr ++ Event.UtilCreateDirectory (FullPath "plt00000" scenario.level) ::
            Event.Barrier ::
            (writeLevelRecords scenario (scenario.state.getD 0 default).curTime
                (plot_var_map scenario.isStateSmallPlotVar scenario.desc_lst).length ++
              osWrite [Tok.real vfraceps, Tok.chr '\n'] ++
              [Event.VisMFWrite mf (FullPath "plt00000" scenario.level ++ "/Cell") 0]) ∧
      ∀ e ∈ hdr, (∃ tok, e = Event.os tok) ∨ e = Event.writeJobInfo "plt00000") :=
  ⟨by decide, by decide,
    (barrier_order true 0 scenario "plt00000" 0).1 (by decide),
    (barrier_order true 0 scenario "plt00000" 0).2.1 (by decide)⟩

/-! ## The version file written by `checkPoint` and read by `restart` -/

theorem digitsValue_append (a : List Char) (d : Char) :
    digitsValue (a ++ [d]) = 10 * digitsValue a + (d.toNat - '0'.toNat) := by
  simp [digitsValue, List.foldl_append]

theorem digitChar_isDigit (k : Nat) (hk : k < 10) :
    (Nat.digitChar k).isDigit = true ∧ (Nat.digitChar k).toNat - '0'.toNat = k := by
  interval_cases k <;> decide

theorem toDigitsCore_spec (fuel n : Nat) (ds : List Char) (h : n < fuel) :
    ∃ pre, Nat.toDigitsCore 10 fuel n ds = pre ++ ds ∧ pre ≠ [] ∧
      (∀ c ∈ pre, c.isDigit = true) ∧ digitsValue pre = n := by
  induction fuel generalizing n ds with
  | zero => omega
  | succ fuel ih =>
    have hd := digitChar_isDigit (n % 10) (Nat.mod_lt _ (by decide))
    simp only [Nat.toDigitsCore]
    by_cases hq : n / 10 = 0
    · simp only [hq, if_true]
      refine ⟨[Nat.digitChar (n % 10)], rfl, by simp, ?_, ?_⟩
      · intro c hc
        rw [List.mem_singleton.mp hc]
        exact hd.1
      · have : digitsValue [Nat.digitChar (n % 10)]
            = (Nat.digitChar (n % 10)).toNat - '0'.toNat := by
          simp [digitsValue]
        rw [this, hd.2]
        omega
    · simp only [hq, if_false]
      obtain ⟨pre, hpre, _, hdig, hval⟩ := ih (n / 10) (Nat.digitChar (n % 10) :: ds) (by omega)
      refine ⟨pre ++ [Nat.digitChar (n % 10)], by simp [hpre], by simp, ?_, ?_⟩
      · intro c hc
        rcases List.mem_append.mp hc with hc | hc
        · exact hdig c hc
        · rw [List.mem_singleton.mp hc]
          exact hd.1
      · rw [digitsValue_append, hval, hd.2]
        omega

theorem toDigits_spec (n : Nat) :
    Nat.toDigits 10 n ≠ [] ∧ (∀ c ∈ Nat.toDigits 10 n, c.isDigit = true) ∧
      digitsValue (Nat.toDigits 10 n) = n := by
  obtain ⟨pre, hpre, hne, hdig, hval⟩ := toDigitsCore_spec (n + 1) n [] (by omega)
  rw [List.append_nil] at hpre
  rw [Nat.toDigits, hpre]
  exact ⟨hne, hdig, hval⟩

theorem isDigit_not_special (c : Char) (h : c.isDigit = true) :
    isspace c = false ∧ c ≠ '-' ∧ c ≠ '+' := by
  refine ⟨?_, ?_, ?_⟩
  · simp only [isspace, Bool.or_eq_false_iff, decide_eq_false_iff_not]
    refine ⟨⟨⟨⟨⟨?_, ?_⟩, ?_⟩, ?_⟩, ?_⟩, ?_⟩ <;>
      (rintro rfl; revert h; decide)
  · rintro rfl; revert h; decide
  · rintro rfl; revert h; decide

theorem istream_extract_int_digits (old : Int) (n : Nat) (hn : (n : Int) ≤ INT_MAX) :
    istream_extract_int old (' ' :: (Nat.toDigits 10 n ++ ['\n'])) = n := by
  obtain ⟨hne, hdig, hval⟩ := toDigits_spec n
  cases hds : Nat.toDigits 10 n with
  | nil => exact absurd hds hne
  | cons d ds =>
    rw [hds] at hdig hval
    have hd := isDigit_not_special d (hdig d (List.mem_cons_self _ _))
    have htw : List.takeWhile Char.isDigit (d :: (ds ++ ['\n'])) = d :: ds := by
      rw [← List.cons_append, List.takeWhile_append_of_pos hdig]
      simp
    unfold istream_extract_int
    have hsp : isspace ' ' = true := by decide
    simp only [List.cons_append, List.dropWhile_cons, hsp, if_true, hd.1, Bool.false_eq_true,
      if_false, hd.2.1, hd.2.2, or_self, htw, hval, decide_False, List.isEmpty_cons]
    have h1 : ¬ ((n : Int) < INT_MIN) := by
      unfold INT_MIN
      omega
    have h2 : ¬ ((n : Int) > INT_MAX) := by omega
    simp [h1, h2]

theorem istream_getline_label (rest : List Char) :
    istream_getline ':' 255 ("Checkpoint version: ".toList ++ rest) = (' ' :: rest, true) := by
  rfl

theorem ERFHeader_text_toList (v : Nat) :
    ("Checkpoint version: " ++ toString (v : Int) ++ "\n").toList
      = "Checkpoint version: ".toList ++ (Nat.toDigits 10 v ++ ['\n']) := by
  have h : toString (v : Int) = String.mk (Nat.toDigits 10 v) := rfl
  rw [h]
  simp [String.toList, String.data_append]

theorem readERFHeader_checkPoint (v : Nat) (old : Int) (hv : (v : Int) ≤ INT_MAX) :
    readERFHeader old (some ("Checkpoint version: " ++ toString (v : Int) ++ "\n"))
      = (v : Int) := by
  simp only [readERFHeader]
  rw [ERFHeader_text_toList, istream_getline_label]
  simp only [if_true]
  exact istream_extract_int_digits old v hv

/-- C14: for every non-negative version `v` that fits a C++ `int`, the `ERFHeader` text that
`checkPoint` writes for `v` on the I/O processor at level 0 ('Checkpoint version: ', the
decimal digits of `v`, a newline), parsed the way `restart` does (everything up to and
including the first ':' is discarded, then an integer is read), yields `v`, whatever
`input_version` held before. In particular a checkpoint written by this program, whose
`current_version` is 1, resolves to version 1 at the first `restart` of a process, with the
assertion `input_version >= 0` compiled in or not. -/
theorem version_round_trip (v : Nat) (old : Int) (getCPUTime : amrex.Real)
    (hv : (v : Int) ≤ INT_MAX) :
    (checkPoint true 0 (v : Int) getCPUTime).ERFHeader
      = some ("Checkpoint version: " ++ toString (v : Int) ++ "\n") ∧
    readERFHeader old (checkPoint true 0 (v : Int) getCPUTime).ERFHeader = (v : Int) ∧
    (∀ AMREX_DEBUG IOProcessor : Bool,
      restart_version AMREX_DEBUG IOProcessor
          (checkPoint true 0 current_version getCPUTime).ERFHeader Globals.init
        = Except.ok ⟨1, if IOProcessor then 1 else 0⟩) := by
  have hc : ∀ w : Int, (checkPoint true 0 w getCPUTime).ERFHeader
      = some ("Checkpoint version: " ++ toString w ++ "\n") := by
    intro w
    simp [checkPoint]
  refine ⟨hc _, ?_, ?_⟩
  · rw [hc]
    exact readERFHeader_checkPoint v old hv
  · intro dbg io
    rw [hc]
    cases dbg <;> cases io <;> rfl

/-- The statement of C14 for the version this program writes, 1: the text is
`Checkpoint version: 1` and a newline, and it is read back as 1. -/
theorem version_round_trip_witness :
    ((1 : Nat) : Int) ≤ INT_MAX ∧
    (checkPoint true 0 current_version ⟨0⟩).ERFHeader = some "Checkpoint version: 1\n" ∧
    ((checkPoint true 0 ((1 : Nat) : Int) ⟨0⟩).ERFHeader
        = some ("Checkpoint version: " ++ toString ((1 : Nat) : Int) ++ "\n") ∧
      readERFHeader (-1) (checkPoint true 0 ((1 : Nat) : Int) ⟨0⟩).ERFHeader
        = ((1 : Nat) : Int) ∧
      (∀ AMREX_DEBUG IOProcessor : Bool,
        restart_version AMREX_DEBUG IOProcessor
            (checkPoint true 0 current_version ⟨0⟩).ERFHeader Globals.init
          = Except.ok ⟨1, if IOProcessor then 1 else 0⟩)) :=
  ⟨by decide, by decide, version_round_trip 1 (-1) ⟨0⟩ (by decide)⟩

end ERF
